import Mathlib

/-!
# Verification of the MBM-Flex GUI layout-graph core

A shallow embedding of the layout-graph model of the MBM-Flex GUI frontend
(rooms, apertures, the global `State` registry, the managers that mutate it,
the link-mode state machine, the JSON editor's aperture-area handling, the
drag throttle, and the save/load serialization protocol), together with
proofs and refutations of the specified properties.

Modelling conventions:
* JavaScript `Map`s and plain objects are embedded as association lists
  `List (String × α)`; `jsObjSet` mirrors the replace-or-append semantics of
  `Map.set` / property assignment, `jsObjGet` mirrors lookup.  (The
  integer-like-key reordering of `Object.entries` is not modelled; every
  property proved below is insensitive to entry order.)
* JSON / JS numbers are embedded as `JNum`: either an exact rational or the
  distinguished value `nan`.
* `crypto.randomUUID` (a fresh-unique-string supply) is embedded as a counter
  `nextId` carried in the state, rendered by the injective `natToId`.
* File contents are embedded pre-parsed (`UContent`): JSON.parse is a platform
  primitive, so a file is either inert text or a document that qualifies as a
  master document (an object with truthy `rooms` and `apertures` fields).
-/

/-- A UI position `{left, top}`, with exact rational coordinates. -/
structure UIPos where
  left : ℚ
  top : ℚ
  deriving DecidableEq, Repr

/-- A UI size `{width, height}`. -/
structure UISize where
  width : ℚ
  height : ℚ
  deriving DecidableEq, Repr

/-- A room's UI box: `{position, size}`. -/
structure RoomBox where
  position : UIPos
  size : UISize
  deriving DecidableEq, Repr

/-- An aperture's UI record: position only (apertures have no size). -/
structure ApUI where
  position : UIPos
  deriving DecidableEq, Repr

/-- The value stored in a `ui` slot.  Normally a room box; the save format's
`ui` object also stores the aperture-position array under the key
`"apertures"`, and a load can (incorrectly) hand that array to a room, so the
slot type must accommodate both. -/
inductive UIVal where
  | rbox (b : RoomBox)
  | aplist (l : List ApUI)
  deriving DecidableEq, Repr

/-- A JavaScript number: an exact rational, or `NaN`. -/
inductive JNum where
  | nan
  | num (q : ℚ)
  deriving DecidableEq, Repr

/-- An aperture descriptor of the master document:
`{origin, destination, area}` with labels (or a side) as keys.  The master
is a JSON document, so its `area` field is a JSON number or `null`
(`JSON.stringify` serializes a `NaN` area as `null`); `none` is `null`. -/
structure ApDesc where
  origin : String
  destination : String
  area : Option ℚ
  deriving DecidableEq, Repr

/-- The master document: `rooms` (label → filename), `apertures`
(ordered descriptor list), `ui` (label → room UI box, plus the key
`"apertures"` holding the ordered aperture-position list). -/
structure MasterDoc where
  rooms : List (String × String)
  apertures : List ApDesc
  ui : Option (List (String × UIVal))
  deriving DecidableEq, Repr

/-- `JSON.stringify` on a JS number: `NaN` becomes `null`. -/
def jnumToJson : JNum → Option ℚ
  | .nan => none
  | .num q => some q

/-- A room's opaque data payload: the raw string *together with* its
platform classification under `JSON.parse`.  The layout core never inspects
the text, but `findMaster` structurally sniffs every uploaded file — and the
payload is written to its room file verbatim — so the embedding carries the
parse outcome with the string: `text` is a payload that does not qualify as
a master document (unparseable, or no truthy `rooms`/`apertures` fields);
`masterLike s m` is a payload whose text parses to the master-qualifying
document `m`. -/
inductive Payload where
  | text (s : String)
  | masterLike (s : String) (m : MasterDoc)
  deriving DecidableEq, Repr

/-- The raw string of a payload (what `file.text()` returns). -/
def Payload.str : Payload → String
  | .text s => s
  | .masterLike s _ => s

/-- `js/objects/Room.js`: identity, label, opaque data payload, UI metadata. -/
structure Room where
  id : String
  label : String
  data : Payload
  ui : UIVal
  deriving DecidableEq, Repr

/-- Aperture entity: the `Aperture` class (`js/objects/Aperture.js`,
concatenated into the repository overview document).  Its constructor
applies `area ?? 1.0`, `grounded ?? false`, `rooms || []` and
`ui || {position: {left: 0, top: 0}}`; the structure holds the
constructor-applied field values (`areaOfJson` below models the
`area ?? 1.0` defaulting for the JSON-decoded, possibly-`null`, area value
reaching the constructor during a load). -/
structure Aperture where
  id : String
  area : JNum
  grounded : Bool
  rooms : List String
  ui : ApUI
  deriving DecidableEq, Repr

/-- JS object / `Map` lookup on an association list (first binding wins;
bindings are unique in the modelled `Map`s). -/
def jsObjGet {α : Type} (k : String) (l : List (String × α)) : Option α :=
  (l.find? (fun p => p.1 = k)).map (fun p => p.2)

/-- JS object property assignment / `Map.set`: replace the value in place if
the key is present, otherwise append the new binding. -/
def jsObjSet {α : Type} (k : String) (v : α) (l : List (String × α)) :
    List (String × α) :=
  if l.any (fun p => p.1 = k) then
    l.map (fun p => if p.1 = k then (k, v) else p)
  else
    l ++ [(k, v)]

/-- JS `Map.delete`: remove the binding with the given key (keys are unique
in a `Map`, so removing every match is the same operation). -/
def jsMapDelete {α : Type} (k : String) (l : List (String × α)) :
    List (String × α) :=
  l.filter (fun p => ¬(p.1 = k))

/-- The fresh-identifier supply: `generateId` (`crypto.randomUUID`) is
modelled as an injective rendering of a counter carried in the state. -/
def natToId (n : Nat) : String :=
  String.mk (List.replicate (n + 1) 'i')

/-- The global `State` object (`js/core/state.js`), restricted to the fields
the layout-graph core reads and writes: the two registries, the link-mode
flags, plus the id-supply counter of the modelling convention. -/
structure GraphState where
  nextId : Nat
  rooms : List (String × Room)
  apertures : List (String × Aperture)
  linkMode : Bool
  linkSelection : List Room
  deriving DecidableEq, Repr

/-- `js/core/default_room_text.js` is not part of the sources; modelled from
the spec (§4.1: rooms get a default payload); its exact content is irrelevant
to every property below (a plain JSON object is not master-like). -/
def defaultRoomText : Payload := .text "{}"

/-- JS `a || b` on an optional string: `undefined` and `""` are falsy. -/
def jsOrString (o : Option String) (d : String) : String :=
  match o with
  | none => d
  | some s => if s = "" then d else s

/-- JS `a || b` on an optional payload (a string in JS): only the empty
string is falsy. -/
def jsOrPayload (o : Option Payload) (d : Payload) : Payload :=
  match o with
  | none => d
  | some pl => if pl.str = "" then d else pl

/-- The `Room` constructor (`js/objects/Room.js`): re-defaults a falsy label
to `"Room"` and a falsy data payload to the default room text. -/
def mkRoom (id : String) (label : String) (data : Payload) (ui : UIVal) : Room :=
  { id := id
    label := jsOrString (some label) "Room"
    data := jsOrPayload (some data) defaultRoomText
    ui := ui }

/-- The optional overrides accepted by `RoomManager.createRoom`. -/
structure RoomInit where
  label : Option String
  data : Option Payload
  ui : Option UIVal
  deriving Repr

/-- `RoomManager.createRoom`: fresh id, defaulted label
(`"Room " + State.rooms.size`), defaulted data, defaulted UI box, then
registration.  `initialData.ui || default`: `undefined`/`null` are falsy and
every object or array value is truthy. -/
def createRoom (st : GraphState) (init : RoomInit) : Room × GraphState :=
  let id := natToId st.nextId
  let label := jsOrString init.label ("Room " ++ toString st.rooms.length)
  let data := jsOrPayload init.data defaultRoomText
  let ui : UIVal :=
    match init.ui with
    | some v => v
    | none => .rbox ⟨⟨50, 50⟩, ⟨120, 90⟩⟩
  let room := mkRoom id label data ui
  (room, { st with
            nextId := st.nextId + 1
            rooms := jsObjSet id room st.rooms })

/-- `RoomManager.removeRoom`: filter the id out of every aperture's `rooms`
list, then delete the room itself from the registry. -/
def removeRoom (st : GraphState) (id : String) : GraphState :=
  { st with
    apertures := st.apertures.map
      (fun p => (p.1, { p.2 with rooms := p.2.rooms.filter (fun rid => ¬(rid = id)) }))
    rooms := jsMapDelete id st.rooms }

/-- Left coordinate of a room's UI box (`room.ui.position.left`); the
`aplist` case would be a JS runtime `undefined` dereference and is junk-
valued here — every theorem touching it assumes a box-shaped `ui`. -/
def UIVal.posLeft : UIVal → ℚ
  | .rbox b => b.position.left
  | .aplist _ => 0

/-- Top coordinate of a room's UI box. -/
def UIVal.posTop : UIVal → ℚ
  | .rbox b => b.position.top
  | .aplist _ => 0

/-- Width of a room's UI box. -/
def UIVal.sizeW : UIVal → ℚ
  | .rbox b => b.size.width
  | .aplist _ => 0

/-- Height of a room's UI box. -/
def UIVal.sizeH : UIVal → ℚ
  | .rbox b => b.size.height
  | .aplist _ => 0

/-- `ApertureManager.createApertureBetween`: fresh id, UI position at the
midpoint of the two rooms' box centers, `grounded = false`,
`rooms = [roomA.id, roomB.id]`, registration. -/
def createApertureBetween (st : GraphState) (roomA roomB : Room) (area : JNum) :
    Aperture × GraphState :=
  let id := natToId st.nextId
  let l : ℚ := (roomA.ui.posLeft + roomA.ui.sizeW / 2 +
                roomB.ui.posLeft + roomB.ui.sizeW / 2) / 2
  let t : ℚ := (roomA.ui.posTop + roomA.ui.sizeH / 2 +
                roomB.ui.posTop + roomB.ui.sizeH / 2) / 2
  let ap : Aperture :=
    { id := id
      area := area
      grounded := false
      rooms := [roomA.id, roomB.id]
      ui := ⟨⟨l, t⟩⟩ }
  (ap, { st with
          nextId := st.nextId + 1
          apertures := jsObjSet id ap st.apertures })

/-- `ApertureManager.createGroundedAperture`: fresh id, UI position offset
from the room edge selected by `side` (glyph radius 12), `grounded = true`,
`rooms = [roomA.id, side]`, registration. -/
def createGroundedAperture (st : GraphState) (roomA : Room) (side : String)
    (area : JNum) : Aperture × GraphState :=
  let id := natToId st.nextId
  let topDelta : ℚ :=
    if side = "Front" then roomA.ui.sizeH + 12
    else if side = "Back" then -12
    else roomA.ui.sizeH / 2
  let leftDelta : ℚ :=
    if side = "Left" then -12
    else if side = "Right" then roomA.ui.sizeW + 12
    else roomA.ui.sizeW / 2
  let ap : Aperture :=
    { id := id
      area := area
      grounded := true
      rooms := [roomA.id, side]
      ui := ⟨⟨roomA.ui.posLeft + leftDelta, roomA.ui.posTop + topDelta⟩⟩ }
  (ap, { st with
          nextId := st.nextId + 1
          apertures := jsObjSet id ap st.apertures })

/-- `ApertureManager.removeAperture`: unconditional `Map.delete`. -/
def removeAperture (st : GraphState) (id : String) : GraphState :=
  { st with apertures := jsMapDelete id st.apertures }

/-! ## Link-mode state machine (`LinkModeManager`) -/

/-- The property key a JS object coerces to:
`String(room)` is `"[object Object]"` for any plain object. -/
def jsObjectPropertyKey : String := "[object Object]"

/-- Whether a JS array of the given length has the given property key:
its own keys are the indices `"0" … "len-1"` plus `"length"`.  This is what
`key in array` tests. -/
def jsArrayHasKey (len : Nat) (key : String) : Bool :=
  key = "length" || (List.range len).any (fun i => toString i = key)

/-- The membership test `room in State.linkSelection` as written in
`LinkModeManager.linkRoom`: the JS `in` operator coerces the room object to
the property key `"[object Object]"` and tests it against the array's own
property keys. -/
def jsInSelection (_room : Room) (sel : List Room) : Bool :=
  jsArrayHasKey sel.length jsObjectPropertyKey

/-- `LinkModeManager.enableLinkMode`. -/
def enableLinkMode (st : GraphState) : GraphState :=
  { st with linkMode := true, linkSelection := [] }

/-- `LinkModeManager.disableLinkMode`. -/
def disableLinkMode (st : GraphState) : GraphState :=
  { st with linkMode := false, linkSelection := [] }

/-- `LinkModeManager.linkRoom`: ignored outside link mode; guarded by the
(`in`-based) duplicate test; appends the room to the selection; at selection
length two creates the inter-room aperture (default area `1.0`) and exits
link mode. -/
def linkRoom (st : GraphState) (room : Room) : GraphState :=
  if st.linkMode = false then st
  else if jsInSelection room st.linkSelection then st
  else
    let sel := st.linkSelection ++ [room]
    if sel.length = 2 then
      let a := sel.getD 0 room
      let b := sel.getD 1 room
      let r := createApertureBetween { st with linkSelection := sel } a b (.num 1)
      disableLinkMode r.2
    else { st with linkSelection := sel }

/-- `LinkModeManager.linkClickBanner`: ignored outside link mode or unless
exactly one room is selected; creates the grounded aperture (default area
`1.0`) and exits link mode. -/
def linkClickBanner (st : GraphState) (side : String) : GraphState :=
  if st.linkMode = false then st
  else
    match st.linkSelection with
    | [room] =>
        let r := createGroundedAperture st room side (.num 1)
        disableLinkMode r.2
    | _ => st

/-! ## JSON editor, aperture-area branch (`JsonEditor`) -/

/-- A parsed JSON value.  Text is parsed by the platform's `JSON.parse`, so
editor inputs are embedded pre-parsed; `Option JVal` is the result of
`safeParseJSON(text, null)` (`none` = parse failure or the literal `null`). -/
inductive JVal where
  | jbool (b : Bool)
  | jnum (q : ℚ)
  | jstr (s : String)
  | jarr (l : List JVal)
  | jobj (fields : List (String × JVal))

/-- JS truthiness of a parsed JSON value: `false`, `0` and `""` are falsy,
every array and object is truthy. -/
def jsTruthy : JVal → Bool
  | .jbool b => b
  | .jnum q => ¬(q = 0)
  | .jstr s => ¬(s = "")
  | .jarr _ => true
  | .jobj _ => true

/-- Property access `v.area`: defined only on objects, `undefined`
(here `none`) on every other value. -/
def jGetArea : JVal → Option JVal
  | .jobj fields => jsObjGet "area" fields
  | _ => none

/-- The test `obj?.area` (and equivalently `obj != null && obj.area`) used by
`check_aperture` and `onChange`: the parse succeeded, the result has an
`area` property, and that property is truthy. -/
def areaTruthy (parsed : Option JVal) : Bool :=
  match parsed with
  | some v =>
      match jGetArea v with
      | some av => jsTruthy av
      | none => false
  | none => false

/-- The platform `Number()` conversion on strings, simplified to the inputs
exercised here: `""` converts to `0`, decimal integers convert exactly, and
anything else is `NaN`. -/
def strToNum (s : String) : JNum :=
  if s = "" then .num 0
  else
    match s.toInt? with
    | some i => .num (i : ℚ)
    | none => .nan

/-- The platform `Number()` conversion: plain objects convert to `NaN`
(via the `"[object Object]"` string), `null` and `[]` to `0`, a singleton
numeric array to its element, other arrays to `NaN`. -/
def jsToNumber : JVal → JNum
  | .jbool b => .num (if b then 1 else 0)
  | .jnum q => .num q
  | .jstr s => strToNum s
  | .jarr [] => .num 0
  | .jarr [.jnum q] => .num q
  | .jarr _ => .nan
  | .jobj _ => .nan

/-- `JsonEditor.onChange`, aperture branch, fed with the `safeParseJSON`
result of the editor text: re-runs `check_aperture` (the returned flag is
whether the inline error is shown) and reassigns
`area := Number(obj.area)` exactly when `obj?.area` is truthy. -/
def onChangeAperture (ap : Aperture) (parsed : Option JVal) : Aperture × Bool :=
  (match parsed with
   | some v =>
       match jGetArea v with
       | some av => if jsTruthy av then { ap with area := jsToNumber av } else ap
       | none => ap
   | none => ap,
   !(areaTruthy parsed))

/-! ## Drag throttle (`throttle` in `js/core/utils.js`, used by
`DragResizeManager.onDrag`) -/

/-- The state threaded through a drag gesture: the throttle's `last`
timestamp (initially `0`), the model position last written by
`updateUIData`, and the position last pushed through `renderer.update()`
(`none` before the first run). -/
structure DragTrace where
  last : ℚ
  model : UIPos
  rendered : Option UIPos
  deriving DecidableEq, Repr

/-- One `mousemove` sample at time `t` (from `performance.now()`) carrying
the new top-left position. -/
structure DragEvent where
  t : ℚ
  pos : UIPos
  deriving DecidableEq, Repr

/-- `DragResizeManager.onDrag` for one sample: write the position into the
model, then call the throttled renderer, which runs `renderer.update()`
(reading the model) only when at least `16` ms have passed since `last`, and
otherwise does nothing — there is no trailing invocation.  Also returns
whether the renderer ran. -/
def dragStep (s : DragTrace) (e : DragEvent) : DragTrace × Bool :=
  let s1 := { s with model := e.pos }
  if e.t - s.last ≥ 16 then
    ({ s1 with rendered := some e.pos, last := e.t }, true)
  else
    (s1, false)

/-- Process a whole drag gesture (the `mousemove` events up to `mouseup`). -/
def dragRun (s : DragTrace) : List DragEvent → DragTrace
  | [] => s
  | e :: rest => dragRun (dragStep s e).1 rest

/-- The times at which the renderer actually ran during a gesture. -/
def dragFireTimes (s : DragTrace) : List DragEvent → List ℚ
  | [] => []
  | e :: rest =>
      let r := dragStep s e
      if r.2 then e.t :: dragFireTimes r.1 rest else dragFireTimes r.1 rest

/-- The initial drag state: the throttle closure is created with `last = 0`
and nothing rendered yet; the model holds the element's starting position. -/
def dragInit (p : UIPos) : DragTrace :=
  { last := 0, model := p, rendered := none }

/-! ## Save / load protocol (`LoadSaveManager`) -/

/-- An uploaded/downloaded file's content, embedded pre-parsed: either a
payload written/uploaded verbatim (carrying its own parse classification,
see `Payload`), or the master document produced by `save`. -/
inductive UContent where
  | payload (pl : Payload)
  | master (m : MasterDoc)
  deriving DecidableEq, Repr

/-- A file of the upload/download set. -/
structure UFile where
  name : String
  content : UContent
  deriving DecidableEq, Repr

/-- The filename a room is saved under: `room_<label>.json`. -/
def roomFileName (label : String) : String :=
  "room_" ++ label ++ ".json"

/-- `LoadSaveManager.getRoomLabel`: `State.rooms.get(roomId).label`, `none`
when the lookup is `undefined` (in which case the source throws). -/
def getRoomLabel (rooms : List (String × Room)) (rid : String) : Option String :=
  (jsObjGet rid rooms).map (fun r => r.label)

/-- The aperture half of `LoadSaveManager.save`: every aperture pushes its
UI position; a grounded aperture pushes a `{origin, destination, area}`
descriptor (throwing — `.error` — if `rooms[0]` does not resolve to a room;
a missing `rooms[1]` would be JS `undefined`, rendered `""`, and never occurs
in the states considered below); a non-grounded aperture pushes a descriptor
only when its `rooms` list has exactly two entries, both resolvable. -/
def saveApertures (rooms : List (String × Room)) :
    List (String × Aperture) → Except Unit (List ApDesc × List ApUI)
  | [] => .ok ([], [])
  | (_, ap) :: rest =>
    if ap.grounded then
      match ap.rooms.get? 0 with
      | none => .error ()
      | some r0 =>
        match getRoomLabel rooms r0 with
        | none => .error ()
        | some lbl =>
          (saveApertures rooms rest).map (fun r =>
            ({ origin := lbl
               destination := (ap.rooms.get? 1).getD ""
               area := jnumToJson ap.area } :: r.1, ap.ui :: r.2))
    else
      match ap.rooms with
      | [r0, r1] =>
        match getRoomLabel rooms r0, getRoomLabel rooms r1 with
        | some l0, some l1 =>
          (saveApertures rooms rest).map (fun r =>
            ({ origin := l0, destination := l1,
               area := jnumToJson ap.area } :: r.1,
             ap.ui :: r.2))
        | _, _ => .error ()
      | _ =>
        (saveApertures rooms rest).map (fun r => (r.1, ap.ui :: r.2))

/-- `LoadSaveManager.save`: downloads one `room_<label>.json` file per room
(its `data` verbatim) and the master document `layout_master.json`; `.error`
models the `TypeError` thrown on an unresolvable grounded origin. -/
def save (st : GraphState) : Except Unit (List UFile × MasterDoc) :=
  let roomFiles := st.rooms.foldl
    (fun acc p => jsObjSet p.2.label (roomFileName p.2.label) acc) []
  let uiRooms := st.rooms.foldl
    (fun acc p => jsObjSet p.2.label p.2.ui acc) []
  let files := st.rooms.map
    (fun p => UFile.mk (roomFileName p.2.label) (.payload p.2.data))
  match saveApertures st.rooms st.apertures with
  | .error e => .error e
  | .ok r =>
      let m : MasterDoc :=
        { rooms := roomFiles
          apertures := r.1
          ui := some (jsObjSet "apertures" (.aplist r.2) uiRooms) }
      .ok (files ++ [UFile.mk "layout_master.json" (.master m)], m)

/-- The structural sniff of `findMaster`: a file qualifies iff its parsed
content is an object with truthy `rooms` and `apertures` fields — including
a room file whose data payload happens to be a master-like document. -/
def sniffMaster : UContent → Option MasterDoc
  | .payload (.text _) => none
  | .payload (.masterLike _ m) => some m
  | .master m => some m

/-- `LoadSaveManager.findMaster`: first qualifying file wins; `none` models
the `alert` path. -/
def findMaster (files : List UFile) : Option MasterDoc :=
  files.findSome? (fun f => sniffMaster f.content)

/-- `file.text()`: the raw text of a file.  (For a produced `.master` file
this would be its JSON text; no room lookup below ever matches one, so the
value is irrelevant and rendered `""`.) -/
def fileText : UContent → String
  | .payload pl => pl.str
  | .master _ => ""

/-- `file.text()` as a payload: the raw text, keeping its classification
(the classification is a function of the string, so passing the `Payload`
where JS passes the string is faithful).  A produced `.master` file is never
matched by any room lookup below; its value is rendered as an empty
master-like payload. -/
def filePayload : UContent → Payload
  | .payload pl => pl
  | .master m => .masterLike "" m

/-- `filename.substring(filename.lastIndexOf('/') + 1)`: the suffix after
the last `'/'` (the whole string when there is none). -/
def jsBasename (s : String) : String :=
  String.mk ((s.data.reverse.takeWhile (fun c => ¬(c = '/'))).reverse)

/-- `LoadSaveManager.reset`: clear both registries (the canvas is DOM). -/
def reset (st : GraphState) : GraphState :=
  { st with rooms := [], apertures := [] }

/-- The room loop of `LoadSaveManager.load`: for each `label → filename`
entry, fetch the uploaded file matching the basename (`"{}"` if absent),
create the room with that label, the file text as data, and the UI block's
entry for the label, and record it in `temp_rooms` under the label. -/
def loadRooms (files : List UFile) (uiBlock : Option (List (String × UIVal))) :
    GraphState → List (String × Room) → List (String × String) →
    GraphState × List (String × Room)
  | st, temp, [] => (st, temp)
  | st, temp, (label, filename) :: rest =>
      let base := jsBasename filename
      let text : Payload :=
        match files.find? (fun f => f.name = base) with
        | some f => filePayload f.content
        | none => .text "{}"
      let roomUI : Option UIVal :=
        match uiBlock with
        | some ub => jsObjGet label ub
        | none => none
      let r := createRoom st { label := some label, data := some text, ui := roomUI }
      loadRooms files uiBlock r.2 (jsObjSet label r.1 temp) rest

/-- `uiData.apertures` as a position list: present only when the master has
a UI block whose `"apertures"` entry is the aperture-position array (always
the case for saved masters; otherwise the source would fault on indexing and
no overwrite is modelled). -/
def uiApertures (uiBlock : Option (List (String × UIVal))) : Option (List ApUI) :=
  match uiBlock with
  | none => none
  | some ub =>
      match jsObjGet "apertures" ub with
      | some (.aplist l) => some l
      | _ => none

/-- `aperture.ui = …`: overwrite the UI position of the registered aperture
with the given id. -/
def setApertureUI (st : GraphState) (apid : String) (u : ApUI) : GraphState :=
  { st with
    apertures := st.apertures.map
      (fun p => if p.1 = apid then (p.1, { p.2 with ui := u }) else p) }

/-- `aperture.ui = uiData.apertures[i]` guarded by `hasUIData`. -/
def overwriteApUI (st : GraphState) (apid : String) (uis : Option (List ApUI))
    (i : Nat) : GraphState :=
  match uis with
  | none => st
  | some l =>
      match l.get? i with
      | some u => setApertureUI st apid u
      | none => st

/-- The `Aperture` constructor's `area ?? 1.0` applied to the JSON-decoded
area value: a JSON `null` (the serialization of `NaN`) reloads as `1.0`. -/
def areaOfJson : Option ℚ → JNum
  | none => .num 1
  | some q => .num q

/-- The aperture loop of `LoadSaveManager.load`: resolve origin/destination
against `temp_rooms`; both resolve → inter-room aperture; only the origin →
grounded aperture with the destination string as side; neither → dropped.
The created aperture's UI is overwritten from the parallel list by index. -/
def loadApertures (temp : List (String × Room)) (uis : Option (List ApUI)) :
    GraphState → Nat → List ApDesc → GraphState
  | st, _, [] => st
  | st, i, d :: rest =>
      match jsObjGet d.origin temp, jsObjGet d.destination temp with
      | some A, some B =>
          let r := createApertureBetween st A B (areaOfJson d.area)
          loadApertures temp uis (overwriteApUI r.2 r.1.id uis i) (i + 1) rest
      | some A, none =>
          let r := createGroundedAperture st A d.destination (areaOfJson d.area)
          loadApertures temp uis (overwriteApUI r.2 r.1.id uis i) (i + 1) rest
      | none, _ => loadApertures temp uis st (i + 1) rest

/-- `LoadSaveManager.load`: find the master (aborting with an alert —
the returned flag — and an untouched state if none qualifies), reset, then
run the two loops. -/
def load (st : GraphState) (files : List UFile) : GraphState × Bool :=
  match findMaster files with
  | none => (st, true)
  | some m =>
      let st1 := reset st
      let r := loadRooms files m.ui st1 [] m.rooms
      let st2 := loadApertures r.2 (uiApertures m.ui) r.1 0 m.apertures
      (st2, false)

/-! ## Observation functions for the round-trip and alignment claims -/

/-- The label-keyed data payloads of a state, in registry order. -/
def roomLabelData (st : GraphState) : List (String × Payload) :=
  st.rooms.map (fun p => (p.2.label, p.2.data))

/-- The label-keyed room UI values of a state, in registry order. -/
def roomLabelUI (st : GraphState) : List (String × UIVal) :=
  st.rooms.map (fun p => (p.2.label, p.2.ui))

/-- The `{origin, destination, area}` triple an aperture denotes, with room
identifiers resolved to labels against the given registry (`none` when it
does not denote one). -/
def tripleOfR (rooms : List (String × Room)) (ap : Aperture) :
    Option (String × String × JNum) :=
  match ap.rooms with
  | [r0, r1] =>
      if ap.grounded then
        (getRoomLabel rooms r0).map (fun l => (l, r1, ap.area))
      else
        match getRoomLabel rooms r0, getRoomLabel rooms r1 with
        | some l0, some l1 => some (l0, l1, ap.area)
        | _, _ => none
  | _ => none

/-- The label-resolved triples of all apertures of a state, in order. -/
def layoutTriples (st : GraphState) : List (Option (String × String × JNum)) :=
  st.apertures.map (fun p => tripleOfR st.rooms p.2)

/-- The UI positions of all apertures of a state, in order. -/
def apertureUIs (st : GraphState) : List ApUI :=
  st.apertures.map (fun p => p.2.ui)

/-! ## Well-formedness of layouts (the domain of the round-trip claims) -/

/-- An aperture with a full complement of endpoints: grounded with a
registered origin room, or inter-room with exactly two registered rooms. -/
def apWF (rooms : List (String × Room)) (ap : Aperture) : Bool :=
  match ap.rooms with
  | [r0, r1] =>
      if ap.grounded then (jsObjGet r0 rooms).isSome
      else (jsObjGet r0 rooms).isSome && (jsObjGet r1 rooms).isSome
  | _ => false

/-- A payload that is inert towards `findMaster`: non-empty (so the JS `||`
defaulting on creation keeps it) and not itself master-like. -/
def payloadInert : Payload → Bool
  | .text s => ¬(s = "")
  | .masterLike _ _ => false

/-- A room whose serialization is faithful: non-empty label that is not the
reserved key `"apertures"` and survives basename extraction (no `'/'`),
inert non-empty data payload, box-shaped UI. -/
def roomWF (r : Room) : Bool :=
  ¬(r.label = "") && ¬(r.label = "apertures") &&
    (jsBasename (roomFileName r.label) = roomFileName r.label) &&
    payloadInert r.data &&
    (match r.ui with | .rbox _ => true | .aplist _ => false)

/-- The `{origin, destination, area}` descriptor `save` emits for a
well-formed aperture (the `getD ""` defaults are never taken when `apWF`
holds). -/
def descOfWF (rooms : List (String × Room)) (ap : Aperture) : ApDesc :=
  match ap.rooms with
  | [r0, r1] =>
      if ap.grounded then
        { origin := (getRoomLabel rooms r0).getD ""
          destination := r1
          area := jnumToJson ap.area }
      else
        { origin := (getRoomLabel rooms r0).getD ""
          destination := (getRoomLabel rooms r1).getD ""
          area := jnumToJson ap.area }
  | _ => { origin := "", destination := "", area := jnumToJson ap.area }

/-! ## Concrete instances used by witnesses and counterexamples -/

/-- A default-positioned room box as produced by `createRoom`. -/
def defaultBox : RoomBox := ⟨⟨50, 50⟩, ⟨120, 90⟩⟩

/-- A concrete room (as if created by `createRoom` with id supply at 0). -/
def exRoomA : Room :=
  { id := natToId 0, label := "Kitchen", data := .text "dataA", ui := .rbox defaultBox }

/-- A second concrete room, at a different position. -/
def exRoomB : Room :=
  { id := natToId 1, label := "Hall", data := .text "dataB", ui := .rbox ⟨⟨250, 150⟩, ⟨120, 90⟩⟩ }

/-- A state holding `exRoomA` and one grounded aperture from it to `"Front"`. -/
def exGroundedState : GraphState :=
  { nextId := 3
    rooms := [(natToId 0, exRoomA)]
    apertures := [(natToId 2,
      { id := natToId 2, area := .num 1, grounded := true
        rooms := [natToId 0, "Front"], ui := ⟨⟨10, 10⟩⟩ })]
    linkMode := false
    linkSelection := [] }

/-- A state holding the two example rooms and no apertures. -/
def exTwoRoomState : GraphState :=
  { nextId := 2
    rooms := [(natToId 0, exRoomA), (natToId 1, exRoomB)]
    apertures := []
    linkMode := false
    linkSelection := [] }

/-- The empty editor state. -/
def exEmptyState : GraphState :=
  { nextId := 0, rooms := [], apertures := [], linkMode := false, linkSelection := [] }

/-- A state in link mode with `exRoomA` already selected. -/
def exLinkState : GraphState :=
  { exTwoRoomState with linkMode := true, linkSelection := [exRoomA] }

/-- A concrete inter-room aperture between the two example rooms. -/
def exAperture : Aperture :=
  { id := natToId 2, area := .num 1, grounded := false
    rooms := [natToId 0, natToId 1], ui := ⟨⟨10, 10⟩⟩ }

/-- The rooms the load loop recreates from a saved registry `rs`, with fresh
identifiers starting at `n0`: same labels, data and UI, new ids. -/
def expectedRooms (n0 : Nat) : List (String × Room) → List (String × Room)
  | [] => []
  | p :: rest =>
      (natToId n0,
        { id := natToId n0, label := p.2.label, data := p.2.data, ui := p.2.ui }) ::
      expectedRooms (n0 + 1) rest

/-- A state whose single room carries the reserved label `"apertures"`. -/
def exApLabelState : GraphState :=
  { nextId := 1
    rooms := [(natToId 0,
      { id := natToId 0, label := "apertures", data := .text "hello", ui := .rbox defaultBox })]
    apertures := []
    linkMode := false
    linkSelection := [] }

/-- A state with one room and one orphaned (single-endpoint, non-grounded)
aperture, as left behind by `removeRoom` on one end of a linked pair. -/
def exOrphanState : GraphState :=
  { nextId := 3
    rooms := [(natToId 0, exRoomA)]
    apertures := [(natToId 2,
      { id := natToId 2, area := .num 1, grounded := false
        rooms := [natToId 0], ui := ⟨⟨10, 10⟩⟩ })]
    linkMode := false
    linkSelection := [] }

/-! ## Association-list lemmas -/

theorem jsObjGet_nil {α : Type} (k : String) :
    jsObjGet k ([] : List (String × α)) = none := rfl

theorem jsObjGet_cons {α : Type} (k k' : String) (v : α) (l : List (String × α)) :
    jsObjGet k ((k', v) :: l) = if k' = k then some v else jsObjGet k l := by
  by_cases h : k' = k
  · simp [jsObjGet, h]
  · simp [jsObjGet, h]

theorem jsObjGet_append {α : Type} (k : String) (l₁ l₂ : List (String × α)) :
    jsObjGet k (l₁ ++ l₂) = (jsObjGet k l₁).or (jsObjGet k l₂) := by
  induction l₁ with
  | nil => simp [jsObjGet]
  | cons p t ih =>
      obtain ⟨k', v⟩ := p
      by_cases h : k' = k
      · simp [jsObjGet_cons, h]
      · simpa [jsObjGet_cons, h] using ih

theorem jsObjGet_none_of_forall_ne {α : Type} {k : String} {l : List (String × α)}
    (h : ∀ p ∈ l, ¬(p.1 = k)) : jsObjGet k l = none := by
  induction l with
  | nil => rfl
  | cons p t ih =>
      obtain ⟨k', v⟩ := p
      rw [jsObjGet_cons, if_neg (h (k', v) (List.mem_cons_self _ _))]
      exact ih (fun q hq => h q (List.mem_cons_of_mem _ hq))

theorem jsObjGet_append_of_forall_ne {α : Type} (k : String) (l₁ l₂ : List (String × α))
    (h : ∀ p ∈ l₁, ¬(p.1 = k)) : jsObjGet k (l₁ ++ l₂) = jsObjGet k l₂ := by
  rw [jsObjGet_append, jsObjGet_none_of_forall_ne h, Option.none_or]

theorem jsObjGet_eq_some_mem {α : Type} {k : String} {l : List (String × α)} {v : α}
    (h : jsObjGet k l = some v) : (k, v) ∈ l := by
  rw [jsObjGet] at h
  cases hf : l.find? (fun p => p.1 = k) with
  | none => rw [hf] at h; cases h
  | some p =>
      rw [hf] at h
      have hk := List.find?_some hf
      have hm := List.mem_of_find?_eq_some hf
      simp only [decide_eq_true_eq] at hk
      obtain ⟨k₀, v₀⟩ := p
      simp at h
      subst h
      cases hk
      exact hm

theorem jsObjSet_of_forall_ne {α : Type} (k : String) (v : α) (l : List (String × α))
    (h : ∀ p ∈ l, ¬(p.1 = k)) : jsObjSet k v l = l ++ [(k, v)] := by
  rw [jsObjSet, if_neg]
  intro hc
  rw [List.any_eq_true] at hc
  obtain ⟨p, hp, hpk⟩ := hc
  exact h p hp (by simpa using hpk)

theorem jsObjGet_map_replace_self {α : Type} (k : String) (v : α) :
    ∀ l : List (String × α), l.any (fun p => p.1 = k) = true →
      jsObjGet k (l.map (fun p => if p.1 = k then (k, v) else p)) = some v := by
  intro l
  induction l with
  | nil => intro h; cases h
  | cons p t ih =>
      intro hany
      obtain ⟨k', v'⟩ := p
      by_cases h : k' = k
      · simp [h, jsObjGet_cons]
      · have ht : t.any (fun p => p.1 = k) = true := by
          simpa [List.any_cons, h] using hany
        simpa [h, jsObjGet_cons] using ih ht

theorem jsObjGet_set_self {α : Type} (k : String) (v : α) (l : List (String × α)) :
    jsObjGet k (jsObjSet k v l) = some v := by
  by_cases hany : l.any (fun p => p.1 = k) = true
  · rw [jsObjSet, if_pos hany]
    exact jsObjGet_map_replace_self k v l hany
  · rw [jsObjSet, if_neg hany]
    have hnone : jsObjGet k l = none := by
      apply jsObjGet_none_of_forall_ne
      intro p hp hpk
      rw [Bool.not_eq_true, List.any_eq_false] at hany
      exact hany p hp (by simpa using hpk)
    rw [jsObjGet_append, hnone, Option.none_or, jsObjGet_cons, if_pos rfl]

theorem jsObjGet_map_replace_ne {α : Type} {k k' : String} (v : α)
    (hne : ¬(k' = k)) :
    ∀ l : List (String × α),
      jsObjGet k' (l.map (fun p => if p.1 = k then (k, v) else p)) = jsObjGet k' l := by
  intro l
  induction l with
  | nil => rfl
  | cons p t ih =>
      obtain ⟨k₀, v₀⟩ := p
      rw [List.map_cons]
      by_cases h : k₀ = k
      · rw [if_pos (show ((k₀, v₀) : String × α).1 = k from h)]
        rw [jsObjGet_cons, if_neg (fun e : k = k' => hne e.symm), jsObjGet_cons,
          if_neg (fun e : k₀ = k' => hne (e.symm.trans h))]
        exact ih
      · rw [if_neg (show ¬(((k₀, v₀) : String × α).1 = k) from h)]
        rw [jsObjGet_cons, jsObjGet_cons]
        by_cases h2 : k₀ = k'
        · rw [if_pos h2, if_pos h2]
        · rw [if_neg h2, if_neg h2]
          exact ih

theorem jsObjGet_set_ne {α : Type} {k k' : String} (v : α) (l : List (String × α))
    (hne : ¬(k' = k)) : jsObjGet k' (jsObjSet k v l) = jsObjGet k' l := by
  rw [jsObjSet]
  split
  · exact jsObjGet_map_replace_ne v hne l
  · rw [jsObjGet_append, jsObjGet_cons]
    rw [if_neg (fun h => hne h.symm)]
    cases jsObjGet k' l <;> rfl

/-! ## Identifier and filename lemmas -/

theorem natToId_inj : ∀ {a b : Nat}, natToId a = natToId b → a = b := by
  intro a b h
  have hl : (List.replicate (a + 1) 'i').length = (List.replicate (b + 1) 'i').length := by
    have hd := congrArg String.data h
    simpa [natToId] using hd
  simpa using hl

theorem roomFileName_inj {a b : String} (h : roomFileName a = roomFileName b) :
    a = b := by
  rw [roomFileName, roomFileName] at h
  have hd := congrArg String.data h
  simp only [String.data_append] at hd
  exact String.ext (List.append_cancel_left (List.append_cancel_right hd))

/-! ## Deletion and filter lemmas -/

theorem jsMapDelete_lookup {α : Type} (k id : String) (l : List (String × α)) :
    jsObjGet k (jsMapDelete id l) = if k = id then none else jsObjGet k l := by
  induction l with
  | nil => simp [jsMapDelete, jsObjGet_nil]
  | cons p t ih =>
      obtain ⟨k₀, v₀⟩ := p
      by_cases h0 : k₀ = id
      · have : jsMapDelete id (((k₀, v₀) : String × α) :: t) = jsMapDelete id t := by
          simp [jsMapDelete, List.filter_cons, h0]
        rw [this, ih]
        by_cases hk : k = id
        · rw [if_pos hk, if_pos hk]
        · rw [if_neg hk, if_neg hk, jsObjGet_cons, if_neg (fun e => hk (by rw [← e, h0]))]
      · have : jsMapDelete id (((k₀, v₀) : String × α) :: t) =
            (k₀, v₀) :: jsMapDelete id t := by
          simp [jsMapDelete, List.filter_cons, h0]
        rw [this, jsObjGet_cons, jsObjGet_cons, ih]
        by_cases hk0 : k₀ = k
        · rw [if_pos hk0, if_pos hk0]
          rw [if_neg (fun e : k = id => h0 (hk0.trans e))]
        · rw [if_neg hk0, if_neg hk0]

theorem jsMapDelete_of_forall_ne {α : Type} (id : String) (l : List (String × α))
    (h : ∀ p ∈ l, ¬(p.1 = id)) : jsMapDelete id l = l := by
  rw [jsMapDelete, List.filter_eq_self]
  intro p hp
  simpa using h p hp

theorem filter_ne_of_not_mem {id : String} {l : List String} (h : ¬(id ∈ l)) :
    l.filter (fun rid => ¬(rid = id)) = l := by
  rw [List.filter_eq_self]
  intro a ha
  simp only [decide_not, Bool.not_eq_true', decide_eq_false_iff_not]
  intro he
  exact h (he ▸ ha)

/-! ## Lemmas about value-mapping of registries -/

theorem jsObjGet_map_value {α β : Type} (f : α → β) (k : String) :
    ∀ l : List (String × α),
      jsObjGet k (l.map (fun p => (p.1, f p.2))) = (jsObjGet k l).map f := by
  intro l
  induction l with
  | nil => rfl
  | cons p t ih =>
      obtain ⟨k₀, v₀⟩ := p
      by_cases h : k₀ = k
      · simp [jsObjGet_cons, h]
      · simpa [jsObjGet_cons, h] using ih

theorem map_value_id_of_pointwise {α : Type} (f : α → α) :
    ∀ l : List (String × α), (∀ p ∈ l, f p.2 = p.2) →
      l.map (fun p => (p.1, f p.2)) = l := by
  intro l
  induction l with
  | nil => intro _; rfl
  | cons p t ih =>
      intro h
      obtain ⟨k₀, v₀⟩ := p
      rw [List.map_cons, h (k₀, v₀) (List.mem_cons_self _ _)]
      rw [ih (fun q hq => h q (List.mem_cons_of_mem _ hq))]

/-! ## Claim theorems: room/aperture removal -/

/-- C2.  `removeRoom(id)` filters `id` out of every aperture's `rooms` list
(and nothing else: id set, other fields, and every other list entry are
preserved), deletes exactly the room keyed `id` from the room registry, and
leaves every other part of the state (other rooms, link-mode fields, id
supply) unchanged; no aperture is deleted. -/
theorem removeRoom_spec (st : GraphState) (id : String) :
    ((removeRoom st id).apertures.map (fun p => p.1) =
        st.apertures.map (fun p => p.1)) ∧
    (∀ k, jsObjGet k (removeRoom st id).apertures =
        (jsObjGet k st.apertures).map
          (fun ap => { ap with rooms := ap.rooms.filter (fun rid => ¬(rid = id)) })) ∧
    (∀ k, jsObjGet k (removeRoom st id).rooms =
        if k = id then none else jsObjGet k st.rooms) ∧
    (removeRoom st id).linkMode = st.linkMode ∧
    (removeRoom st id).linkSelection = st.linkSelection ∧
    (removeRoom st id).nextId = st.nextId := by
  refine ⟨?_, ?_, ?_, rfl, rfl, rfl⟩
  · rw [removeRoom]
    simp
  · intro k
    rw [removeRoom]
    exact jsObjGet_map_value
      (fun ap => { ap with rooms := ap.rooms.filter (fun rid => ¬(rid = id)) }) k st.apertures
  · intro k
    rw [removeRoom]
    exact jsMapDelete_lookup k id st.rooms

/-- C10, counterexample.  The side label `"Front"` is a key of neither
registry, yet `removeRoom "Front"` mutates the grounded aperture: its
`rooms` list loses the side entry. -/
theorem removeRoom_foreign_id_mutates :
    jsObjGet "Front" exGroundedState.rooms = none ∧
    jsObjGet "Front" exGroundedState.apertures = none ∧
    (jsObjGet (natToId 2) (removeRoom exGroundedState "Front").apertures).map
        Aperture.rooms = some [natToId 0] ∧
    (jsObjGet (natToId 2) exGroundedState.apertures).map Aperture.rooms =
        some [natToId 0, "Front"] := by
  refine ⟨rfl, rfl, ?_, rfl⟩
  rfl

/-- C10, amended.  `removeAperture` is a no-op for *any* identifier that is
not an aperture key, with no further condition; `removeRoom` for an
identifier that is a key of neither registry is a complete no-op only under
the extra condition that the identifier appears in no aperture's `rooms`
list (side labels of grounded apertures do appear there). -/
theorem remove_foreign_id_noop (st : GraphState) (id : String)
    (h2 : ∀ p ∈ st.apertures, ¬(p.1 = id)) :
    removeAperture st id = st ∧
    ((∀ p ∈ st.rooms, ¬(p.1 = id)) →
      (∀ p ∈ st.apertures, ¬(id ∈ p.2.rooms)) →
      removeRoom st id = st) := by
  constructor
  · rw [removeAperture]
    rw [jsMapDelete_of_forall_ne id st.apertures h2]
  · intro h1 h3
    rw [removeRoom]
    rw [map_value_id_of_pointwise
      (fun ap => { ap with rooms := ap.rooms.filter (fun rid => ¬(rid = id)) })
      st.apertures (fun p hp => by
        show ({ p.2 with rooms := p.2.rooms.filter (fun rid => ¬(rid = id)) }) = p.2
        rw [filter_ne_of_not_mem (h3 p hp)])]
    rw [jsMapDelete_of_forall_ne id st.rooms h1]

/-- C10 witness: `removeAperture` at the side label `"Front"` (a key of
neither registry, present in a grounded aperture's `rooms` list) is already
a no-op with no extra condition, and both operations at the fully foreign
identifier `"zz"` are no-ops. -/
theorem remove_foreign_id_noop_witness :
    removeAperture exGroundedState "Front" = exGroundedState ∧
    removeRoom exGroundedState "zz" = exGroundedState :=
  ⟨(remove_foreign_id_noop exGroundedState "Front" (by decide)).1,
   (remove_foreign_id_noop exGroundedState "zz" (by decide)).2 (by decide) (by decide)⟩

/-! ## Claim theorem: inter-room aperture position -/

/-- C5.  For rooms `A`, `B` with UI boxes, `createApertureBetween` yields an
aperture positioned at the componentwise average of the two box centers,
with `grounded = false` and `rooms = [A.id, B.id]`, and registers exactly
that aperture. -/
theorem createApertureBetween_center (st : GraphState) (A B : Room) (area : JNum)
    (bA bB : RoomBox) (hA : A.ui = .rbox bA) (hB : B.ui = .rbox bB) :
    (createApertureBetween st A B area).1.ui.position.left =
        ((bA.position.left + bA.size.width / 2) +
         (bB.position.left + bB.size.width / 2)) / 2 ∧
    (createApertureBetween st A B area).1.ui.position.top =
        ((bA.position.top + bA.size.height / 2) +
         (bB.position.top + bB.size.height / 2)) / 2 ∧
    (createApertureBetween st A B area).1.grounded = false ∧
    (createApertureBetween st A B area).1.rooms = [A.id, B.id] ∧
    (createApertureBetween st A B area).1.area = area ∧
    (createApertureBetween st A B area).2.apertures =
        jsObjSet (createApertureBetween st A B area).1.id
          (createApertureBetween st A B area).1 st.apertures := by
  refine ⟨?_, ?_, rfl, rfl, rfl, rfl⟩
  · simp [createApertureBetween, UIVal.posLeft, UIVal.sizeW, hA, hB]
    ring
  · simp [createApertureBetween, UIVal.posTop, UIVal.sizeH, hA, hB]
    ring

/-- C5 witness: the center formula evaluated on the two example rooms. -/
theorem createApertureBetween_center_witness :
    (createApertureBetween exTwoRoomState exRoomA exRoomB (.num 1)).1.ui.position.left =
        ((50 + 120 / 2) + (250 + 120 / 2)) / 2 ∧
    (createApertureBetween exTwoRoomState exRoomA exRoomB (.num 1)).1.ui.position.top =
        ((50 + 90 / 2) + (150 + 90 / 2)) / 2 ∧
    (createApertureBetween exTwoRoomState exRoomA exRoomB (.num 1)).1.grounded = false ∧
    (createApertureBetween exTwoRoomState exRoomA exRoomB (.num 1)).1.rooms =
        [exRoomA.id, exRoomB.id] ∧
    (createApertureBetween exTwoRoomState exRoomA exRoomB (.num 1)).1.area = .num 1 ∧
    (createApertureBetween exTwoRoomState exRoomA exRoomB (.num 1)).2.apertures =
        jsObjSet (createApertureBetween exTwoRoomState exRoomA exRoomB (.num 1)).1.id
          (createApertureBetween exTwoRoomState exRoomA exRoomB (.num 1)).1
          exTwoRoomState.apertures :=
  createApertureBetween_center exTwoRoomState exRoomA exRoomB (.num 1)
    defaultBox ⟨⟨250, 150⟩, ⟨120, 90⟩⟩ rfl rfl

/-! ## Link-mode lemmas and claim theorems -/

/-- The broken `in`-based membership test never fires on the selection sizes
link mode can reach: an array of length at most two has no own property key
equal to `"[object Object]"`. -/
theorem jsInSelection_small (r : Room) (sel : List Room) (h : sel.length ≤ 2) :
    jsInSelection r sel = false := by
  rcases sel with _ | ⟨a, sel⟩
  · rw [jsInSelection]
    decide
  · rcases sel with _ | ⟨b, sel⟩
    · rw [jsInSelection]
      show jsArrayHasKey 1 jsObjectPropertyKey = false
      decide
    · rcases sel with _ | ⟨c, sel⟩
      · rw [jsInSelection]
        show jsArrayHasKey 2 jsObjectPropertyKey = false
        decide
      · exfalso
        simp only [List.length_cons] at h
        omega

/-- C3.  From an active link mode with one room `r1` selected:
`linkRoom` with a distinct second room appends exactly one new inter-room
aperture (`grounded = false`, `rooms = [r1.id, r2.id]`, default area `1`) to
the registry and returns the machine to Idle; `linkClickBanner side` appends
exactly one new grounded aperture (`rooms = [r1.id, side]`, default area
`1`) and returns to Idle. -/
theorem linkWizard_completes (st : GraphState) (r1 r2 : Room) (side : String)
    (hmode : st.linkMode = true)
    (hsel : st.linkSelection = [r1])
    (_hdist : ¬(r2.id = r1.id))
    (hfresh : ∀ p ∈ st.apertures, ¬(p.1 = natToId st.nextId)) :
    (∃ ap : Aperture,
        (linkRoom st r2).apertures = st.apertures ++ [(natToId st.nextId, ap)] ∧
        ap.grounded = false ∧ ap.rooms = [r1.id, r2.id] ∧ ap.area = .num 1) ∧
    (linkRoom st r2).linkMode = false ∧
    (linkRoom st r2).linkSelection = [] ∧
    (∃ ap : Aperture,
        (linkClickBanner st side).apertures =
          st.apertures ++ [(natToId st.nextId, ap)] ∧
        ap.grounded = true ∧ ap.rooms = [r1.id, side] ∧ ap.area = .num 1) ∧
    (linkClickBanner st side).linkMode = false ∧
    (linkClickBanner st side).linkSelection = [] := by
  have hmode' : ¬(st.linkMode = false) := by rw [hmode]; simp
  have hin : jsInSelection r2 st.linkSelection = false := by
    apply jsInSelection_small
    rw [hsel]
    show (1 : Nat) ≤ 2
    decide
  have keyRoom : linkRoom st r2 =
      disableLinkMode
        (createApertureBetween { st with linkSelection := [r1, r2] } r1 r2 (.num 1)).2 := by
    rw [linkRoom, if_neg hmode', hin]
    simp only [Bool.false_eq_true, if_false, hsel]
    rfl
  have keyBanner : linkClickBanner st side =
      disableLinkMode (createGroundedAperture st r1 side (.num 1)).2 := by
    rw [linkClickBanner, if_neg hmode', hsel]
  have happ : ∀ ap : Aperture,
      jsObjSet (natToId st.nextId) ap st.apertures =
        st.apertures ++ [(natToId st.nextId, ap)] :=
    fun ap => jsObjSet_of_forall_ne (natToId st.nextId) ap st.apertures hfresh
  refine ⟨⟨(createApertureBetween { st with linkSelection := [r1, r2] } r1 r2 (.num 1)).1,
      ?_, rfl, rfl, rfl⟩, ?_, ?_,
    ⟨(createGroundedAperture st r1 side (.num 1)).1, ?_, rfl, rfl, rfl⟩, ?_, ?_⟩
  · rw [keyRoom]
    exact happ _
  · rw [keyRoom]; rfl
  · rw [keyRoom]; rfl
  · rw [keyBanner]
    exact happ _
  · rw [keyBanner]; rfl
  · rw [keyBanner]; rfl

/-- C3 witness: the wizard run from the concrete link state with the two
example rooms and the side `"Left"`. -/
theorem linkWizard_completes_witness :
    (∃ ap : Aperture,
        (linkRoom exLinkState exRoomB).apertures =
          exLinkState.apertures ++ [(natToId exLinkState.nextId, ap)] ∧
        ap.grounded = false ∧ ap.rooms = [exRoomA.id, exRoomB.id] ∧ ap.area = .num 1) ∧
    (linkRoom exLinkState exRoomB).linkMode = false ∧
    (linkRoom exLinkState exRoomB).linkSelection = [] ∧
    (∃ ap : Aperture,
        (linkClickBanner exLinkState "Left").apertures =
          exLinkState.apertures ++ [(natToId exLinkState.nextId, ap)] ∧
        ap.grounded = true ∧ ap.rooms = [exRoomA.id, "Left"] ∧ ap.area = .num 1) ∧
    (linkClickBanner exLinkState "Left").linkMode = false ∧
    (linkClickBanner exLinkState "Left").linkSelection = [] :=
  linkWizard_completes exLinkState exRoomA exRoomB "Left" rfl rfl (by decide)
    (by intro p hp; cases hp)

/-- C4.  The duplicate-selection guard is broken: clicking the same room
twice while in link mode adds it to the selection twice and creates a
self-loop aperture whose two `rooms` entries are the same identifier, while
the guard's own comment promises to "prevent selecting the same room
twice".  Evaluation of the code at the failing input. -/
theorem linkRoom_duplicate_selection_bug :
    (linkRoom (enableLinkMode exEmptyState) exRoomA).linkSelection = [exRoomA] ∧
    ((linkRoom (linkRoom (enableLinkMode exEmptyState) exRoomA) exRoomA).apertures.map
        (fun p => p.2.rooms)) = [[exRoomA.id, exRoomA.id]] ∧
    (linkRoom (linkRoom (enableLinkMode exEmptyState) exRoomA) exRoomA).linkMode = false := by
  refine ⟨rfl, rfl, rfl⟩

/-! ## Load-abort claim theorem -/

/-- C6.  When no uploaded file qualifies as a master document, `load`
reports the user-facing notice and returns the graph state completely
unchanged — the registries are not reset. -/
theorem load_no_master_untouched (st : GraphState) (files : List UFile)
    (h : ∀ f ∈ files, sniffMaster f.content = none) :
    load st files = (st, true) := by
  rw [load]
  have hm : findMaster files = none := by
    rw [findMaster]
    exact List.findSome?_eq_none_iff.mpr h
  rw [hm]

/-- C6 witness: a concrete upload set with no master-like file leaves a
concrete non-empty state untouched. -/
theorem load_no_master_untouched_witness :
    load exGroundedState
      [UFile.mk "a.json" (.payload (.text "not json")),
       UFile.mk "b.json" (.payload (.text "{}"))] =
      (exGroundedState, true) :=
  load_no_master_untouched exGroundedState
    [UFile.mk "a.json" (.payload (.text "not json")),
       UFile.mk "b.json" (.payload (.text "{}"))]
    (by decide)

/-! ## JSON-editor claim theorems -/

/-- C7, counterexample.  A truthy but non-numeric `area` (here the object
`{"area": {}}`) is *accepted*: no inline message is shown and the aperture's
`area` is overwritten with `NaN`, losing its previous numeric value — the
claim requires rejection with a message and an unchanged numeric value. -/
theorem onChangeAperture_nonnumeric_overwrites :
    (onChangeAperture exAperture (some (.jobj [("area", .jobj [])]))).1.area = .nan ∧
    (onChangeAperture exAperture (some (.jobj [("area", .jobj [])]))).2 = false ∧
    exAperture.area = .num 1 ∧
    ¬((onChangeAperture exAperture (some (.jobj [("area", .jobj [])]))).1.area =
        exAperture.area) := by
  refine ⟨rfl, rfl, rfl, ?_⟩
  intro h
  cases h

/-- C7, amended.  An aperture-area edit is rejected (inline message shown,
`area` unchanged) exactly when `obj?.area` is falsy — unparseable input,
missing `area` field, or a falsy `area` value; any *truthy* `area` value is
accepted with no message and `area` is reassigned to the JS `Number()`
conversion of the value, which is `NaN` for non-numeric values such as
objects. -/
theorem onChangeAperture_spec (ap : Aperture) (parsed : Option JVal) :
    (areaTruthy parsed = false → onChangeAperture ap parsed = (ap, true)) ∧
    (∀ v av, parsed = some v → jGetArea v = some av → jsTruthy av = true →
        onChangeAperture ap parsed = ({ ap with area := jsToNumber av }, false)) := by
  constructor
  · intro hf
    cases parsed with
    | none => rfl
    | some v =>
        cases hv : jGetArea v with
        | none => simp [onChangeAperture, hf, hv]
        | some av =>
            have hta : jsTruthy av = false := by
              rw [areaTruthy, hv] at hf
              exact hf
            simp [onChangeAperture, hf, hv, hta]
  · intro v av hp hv ht
    subst hp
    have hat : areaTruthy (some v) = true := by rw [areaTruthy, hv]; exact ht
    simp [onChangeAperture, hat, hv, ht]

/-- C7 witness: the amended theorem applied at two concrete inputs — a
non-object input (rejected, unchanged) and a numeric area `2` (accepted,
assigned exactly). -/
theorem onChangeAperture_spec_witness :
    onChangeAperture exAperture (some (.jstr "oops")) = (exAperture, true) ∧
    onChangeAperture exAperture (some (.jobj [("area", .jnum 2)])) =
      ({ exAperture with area := .num 2 }, false) :=
  ⟨(onChangeAperture_spec exAperture (some (.jstr "oops"))).1 rfl,
   by
    have h := (onChangeAperture_spec exAperture
      (some (.jobj [("area", .jnum 2)]))).2 (.jobj [("area", .jnum 2)]) (.jnum 2)
      rfl rfl (by decide)
    rw [h]
    rfl⟩

/-! ## Drag-throttle lemmas and claim theorems -/

theorem dragStep_fire {s : DragTrace} {e : DragEvent} (hf : e.t - s.last ≥ 16) :
    dragStep s e = ({ last := e.t, model := e.pos, rendered := some e.pos }, true) := by
  simp [dragStep, hf]

theorem dragStep_skip {s : DragTrace} {e : DragEvent} (hf : ¬(e.t - s.last ≥ 16)) :
    dragStep s e = ({ s with model := e.pos }, false) := by
  simp [dragStep, hf]

/-- Every renderer run during a monotone gesture is at least 16 ms after the
throttle's previous `last` stamp, and the run times are pairwise ≥ 16 ms
apart. -/
theorem dragFireTimes_spaced (evts : List DragEvent) : ∀ (s : DragTrace),
    List.Pairwise (fun e1 e2 => e1.t ≤ e2.t) evts →
    (∀ e ∈ evts, s.last ≤ e.t) →
    List.Chain' (fun a b => a + 16 ≤ b) (dragFireTimes s evts) ∧
    (∀ x ∈ dragFireTimes s evts, s.last + 16 ≤ x) := by
  induction evts with
  | nil => intro s _ _; exact ⟨List.chain'_nil, by intro x hx; cases hx⟩
  | cons e rest ih =>
      intro s hmono hge
      have hmono' := (List.pairwise_cons.mp hmono).2
      have hhead := (List.pairwise_cons.mp hmono).1
      by_cases hf : e.t - s.last ≥ 16
      · have hstep := dragStep_fire hf
        have hfires : dragFireTimes s (e :: rest) =
            e.t :: dragFireTimes
              ({ last := e.t, model := e.pos, rendered := some e.pos } : DragTrace) rest := by
          simp [dragFireTimes, hstep]
        have hrest := ih ({ last := e.t, model := e.pos, rendered := some e.pos })
          hmono' (by intro e' he'; exact hhead e' he')
        constructor
        · rw [hfires]
          rw [List.chain'_cons']
          refine ⟨?_, hrest.1⟩
          intro b hb
          have hmem : b ∈ dragFireTimes
              ({ last := e.t, model := e.pos, rendered := some e.pos } : DragTrace) rest :=
            List.mem_of_mem_head? hb
          exact le_trans (by linarith) (hrest.2 b hmem)
        · rw [hfires]
          intro x hx
          rcases List.mem_cons.mp hx with h | h
          · subst h; linarith
          · have := hrest.2 x h
            have hse : s.last ≤ e.t := hge e (List.mem_cons_self _ _)
            linarith
      · have hstep := dragStep_skip hf
        have hfires : dragFireTimes s (e :: rest) =
            dragFireTimes ({ s with model := e.pos } : DragTrace) rest := by
          simp [dragFireTimes, hstep]
        have hrest := ih ({ s with model := e.pos })
          hmono' (by intro e' he'; exact le_trans (hge e (List.mem_cons_self _ _)) (hhead e' he'))
        rw [hfires]
        exact ⟨hrest.1, hrest.2⟩

/-- C8, amended.  During a monotone drag gesture the throttled renderer runs
at most once per 16 ms (consecutive run times are ≥ 16 ms apart), and
whenever it does run it reflects the model state just written; but the
throttle has no trailing invocation, so a final mutation falling inside the
throttle window is never re-rendered (see the counterexample theorem). -/
theorem dragThrottle_spec (evts : List DragEvent) (s : DragTrace)
    (hmono : List.Pairwise (fun e1 e2 => e1.t ≤ e2.t) evts)
    (hstart : ∀ e ∈ evts, s.last ≤ e.t) :
    List.Chain' (fun a b => a + 16 ≤ b) (dragFireTimes s evts) ∧
    (∀ (s' : DragTrace) (e : DragEvent), (dragStep s' e).2 = true →
        (dragStep s' e).1.rendered = some (dragStep s' e).1.model) := by
  refine ⟨(dragFireTimes_spaced evts s hmono hstart).1, ?_⟩
  intro s' e hfired
  by_cases hf : e.t - s'.last ≥ 16
  · rw [dragStep_fire hf]
  · rw [dragStep_skip hf] at hfired
    cases hfired

/-- C8 witness: the throttle run on a concrete monotone three-event gesture
(run times 16 and 40 are ≥ 16 apart). -/
theorem dragThrottle_spec_witness :
    List.Chain' (fun a b => a + 16 ≤ b)
      (dragFireTimes (dragInit ⟨0, 0⟩)
        [⟨16, ⟨1, 1⟩⟩, ⟨20, ⟨2, 2⟩⟩, ⟨40, ⟨3, 3⟩⟩]) ∧
    (∀ (s' : DragTrace) (e : DragEvent), (dragStep s' e).2 = true →
        (dragStep s' e).1.rendered = some (dragStep s' e).1.model) :=
  dragThrottle_spec [⟨16, ⟨1, 1⟩⟩, ⟨20, ⟨2, 2⟩⟩, ⟨40, ⟨3, 3⟩⟩] (dragInit ⟨0, 0⟩)
    (by decide) (by decide)

/-- C8, counterexample.  The last mutation before pointer-up *is* dropped:
with a render at t = 16 and a final move at t = 20, the model holds the
final position but the rendered state keeps the earlier one, and no further
renderer run happens when the window reopens (the fire-time list is `[16]`).
The claim's "the last position written to the model is reflected by a
renderer run once the throttle window reopens" is false of the code. -/
theorem dragThrottle_drops_final :
    (dragRun (dragInit ⟨0, 0⟩) [⟨16, ⟨100, 100⟩⟩, ⟨20, ⟨200, 200⟩⟩]).model =
        ⟨200, 200⟩ ∧
    (dragRun (dragInit ⟨0, 0⟩) [⟨16, ⟨100, 100⟩⟩, ⟨20, ⟨200, 200⟩⟩]).rendered =
        some ⟨100, 100⟩ ∧
    dragFireTimes (dragInit ⟨0, 0⟩) [⟨16, ⟨100, 100⟩⟩, ⟨20, ⟨200, 200⟩⟩] = [16] ∧
    ¬((dragRun (dragInit ⟨0, 0⟩) [⟨16, ⟨100, 100⟩⟩, ⟨20, ⟨200, 200⟩⟩]).rendered =
        some (dragRun (dragInit ⟨0, 0⟩) [⟨16, ⟨100, 100⟩⟩, ⟨20, ⟨200, 200⟩⟩]).model) := by
  have hs1 : dragStep (dragInit ⟨0, 0⟩) ⟨16, ⟨100, 100⟩⟩ =
      ({ last := 16, model := ⟨100, 100⟩, rendered := some ⟨100, 100⟩ }, true) :=
    dragStep_fire (by show (16 : ℚ) - 0 ≥ 16; norm_num)
  have hs2 : dragStep ({ last := 16, model := ⟨100, 100⟩, rendered := some ⟨100, 100⟩ })
      ⟨20, ⟨200, 200⟩⟩ =
      ({ last := 16, model := ⟨200, 200⟩, rendered := some ⟨100, 100⟩ }, false) :=
    dragStep_skip (by show ¬((20 : ℚ) - 16 ≥ 16); norm_num)
  have hrun : dragRun (dragInit ⟨0, 0⟩) [⟨16, ⟨100, 100⟩⟩, ⟨20, ⟨200, 200⟩⟩] =
      { last := 16, model := ⟨200, 200⟩, rendered := some ⟨100, 100⟩ } := by
    simp only [dragRun, hs1, hs2]
  have hfires : dragFireTimes (dragInit ⟨0, 0⟩) [⟨16, ⟨100, 100⟩⟩, ⟨20, ⟨200, 200⟩⟩] = [16] := by
    simp only [dragFireTimes, hs1, hs2]
    rfl
  refine ⟨by rw [hrun], by rw [hrun], hfires, ?_⟩
  rw [hrun]
  intro h
  have h2 := Option.some.inj h
  have h3 := congrArg UIPos.left h2
  norm_num at h3

/-! ## Save-side lemmas and alignment claim theorems -/

theorem saveApertures_wf (rooms : List (String × Room)) :
    ∀ (aps : List (String × Aperture)), (∀ p ∈ aps, apWF rooms p.2 = true) →
      saveApertures rooms aps =
        .ok (aps.map (fun p => descOfWF rooms p.2), aps.map (fun p => p.2.ui)) := by
  intro aps
  induction aps with
  | nil => intro _; rfl
  | cons p rest ih =>
      intro h
      obtain ⟨k, ap⟩ := p
      have hwf := h (k, ap) (List.mem_cons_self _ _)
      have hrest := ih (fun q hq => h q (List.mem_cons_of_mem _ hq))
      rcases hr : ap.rooms with _ | ⟨r0, _ | ⟨r1, _ | ⟨r2, t⟩⟩⟩
      · rw [apWF, hr] at hwf; cases hwf
      · rw [apWF, hr] at hwf; cases hwf
      · by_cases hg : ap.grounded = true
        · simp only [apWF, hr, hg, if_true] at hwf
          obtain ⟨A0, hA0⟩ := Option.isSome_iff_exists.mp hwf
          have hl : getRoomLabel rooms r0 = some A0.label := by
            rw [getRoomLabel, hA0]; rfl
          simp [saveApertures, hr, hg, hl, hrest, descOfWF, Except.map]
        · have hgf : ap.grounded = false := Bool.eq_false_iff.mpr hg
          simp only [apWF, hr, hgf, Bool.false_eq_true, if_false] at hwf
          have hw : (jsObjGet r0 rooms).isSome = true ∧ (jsObjGet r1 rooms).isSome = true := by
            simpa using hwf
          obtain ⟨hw0, hw1⟩ := hw
          obtain ⟨A0, hA0⟩ := Option.isSome_iff_exists.mp hw0
          obtain ⟨A1, hA1⟩ := Option.isSome_iff_exists.mp hw1
          have hl0 : getRoomLabel rooms r0 = some A0.label := by
            rw [getRoomLabel, hA0]; rfl
          have hl1 : getRoomLabel rooms r1 = some A1.label := by
            rw [getRoomLabel, hA1]; rfl
          simp [saveApertures, hr, hgf, hl0, hl1, hrest, descOfWF, Except.map]
      · rw [apWF, hr] at hwf; cases hwf

theorem tripleOfR_of_wf (rooms : List (String × Room)) (ap : Aperture)
    (h : apWF rooms ap = true) :
    tripleOfR rooms ap =
      some ((descOfWF rooms ap).origin, (descOfWF rooms ap).destination,
        ap.area) := by
  rcases hr : ap.rooms with _ | ⟨r0, _ | ⟨r1, _ | ⟨r2, t⟩⟩⟩
  · rw [apWF, hr] at h; cases h
  · rw [apWF, hr] at h; cases h
  · by_cases hg : ap.grounded = true
    · simp only [apWF, hr, hg, if_true] at h
      obtain ⟨A0, hA0⟩ := Option.isSome_iff_exists.mp h
      have hl : getRoomLabel rooms r0 = some A0.label := by
        rw [getRoomLabel, hA0]; rfl
      simp [tripleOfR, hr, hg, hl, descOfWF]
    · have hgf : ap.grounded = false := Bool.eq_false_iff.mpr hg
      simp only [apWF, hr, hgf, Bool.false_eq_true, if_false] at h
      have hw : (jsObjGet r0 rooms).isSome = true ∧ (jsObjGet r1 rooms).isSome = true := by
        simpa using h
      obtain ⟨hw0, hw1⟩ := hw
      obtain ⟨A0, hA0⟩ := Option.isSome_iff_exists.mp hw0
      obtain ⟨A1, hA1⟩ := Option.isSome_iff_exists.mp hw1
      have hl0 : getRoomLabel rooms r0 = some A0.label := by
        rw [getRoomLabel, hA0]; rfl
      have hl1 : getRoomLabel rooms r1 = some A1.label := by
        rw [getRoomLabel, hA1]; rfl
      simp [tripleOfR, hr, hgf, hl0, hl1, descOfWF]
  · rw [apWF, hr] at h; cases h

/-- C9, amended.  When every aperture has its full complement of endpoints
(grounded with a registered origin, or inter-room with exactly two
registered rooms — i.e. no orphans from room deletion), `save` succeeds and
the master's `ui.apertures` list is aligned index-for-index with the
descriptor list: both are images of the same aperture sequence, so they have
equal length and the i-th UI entry belongs to the aperture described by the
i-th descriptor. -/
theorem save_alignment (st : GraphState)
    (hwf : ∀ p ∈ st.apertures, apWF st.rooms p.2 = true) :
    ∃ files m, save st = .ok (files, m) ∧
      m.apertures = st.apertures.map (fun p => descOfWF st.rooms p.2) ∧
      uiApertures m.ui = some (apertureUIs st) ∧
      m.apertures.length = (apertureUIs st).length := by
  rw [save, saveApertures_wf st.rooms st.apertures hwf]
  refine ⟨_, _, rfl, rfl, ?_, by simp [apertureUIs]⟩
  rw [uiApertures, jsObjGet_set_self]
  rw [apertureUIs]

/-- C9 witness: alignment on the concrete grounded-aperture state. -/
theorem save_alignment_witness :
    ∃ files m, save exGroundedState = .ok (files, m) ∧
      m.apertures = exGroundedState.apertures.map
        (fun p => descOfWF exGroundedState.rooms p.2) ∧
      uiApertures m.ui = some (apertureUIs exGroundedState) ∧
      m.apertures.length = (apertureUIs exGroundedState).length :=
  save_alignment exGroundedState (by decide)

/-- C9, counterexample.  On a state with an orphaned non-grounded aperture
(`rooms` of length 1), `save` pushes the aperture's UI position but no
descriptor: the produced master has 0 descriptors but 1 UI entry — the two
lists do not even have the same length, refuting the claim for arbitrary
graph states. -/
theorem save_orphan_misaligned :
    (save exOrphanState).map (fun r => r.2.apertures.length) = .ok 0 ∧
    (save exOrphanState).map (fun r => (uiApertures r.2.ui).map List.length) =
      .ok (some 1) := by
  constructor
  · rfl
  · rfl

/-! ## Round-trip counterexample -/

/-- C1, counterexample.  A layout whose single room is labelled
`"apertures"` (labels trivially distinct) does not round-trip: in the saved
master's `ui` object the room's UI box is overwritten by the
aperture-position array stored under the same key, so the reloaded room's
`ui` is that (empty) array instead of its box — the room UI positions are
not reproduced. -/
theorem saveLoad_apertures_label_breaks :
    (save exApLabelState).map (fun r => roomLabelUI (load exApLabelState r.1).1) =
      .ok [("apertures", .aplist [])] ∧
    roomLabelUI exApLabelState = [("apertures", .rbox defaultBox)] ∧
    ¬(UIVal.aplist [] = UIVal.rbox defaultBox) := by
  refine ⟨rfl, rfl, ?_⟩
  intro h
  cases h

/-! ## Lemmas about the reloaded room registry -/

theorem expectedRooms_labelData (rs : List (String × Room)) : ∀ n0 : Nat,
    (expectedRooms n0 rs).map (fun q => (q.2.label, q.2.data)) =
      rs.map (fun p => (p.2.label, p.2.data)) := by
  induction rs with
  | nil => intro n0; rfl
  | cons p rest ih =>
      intro n0
      simp only [expectedRooms, List.map_cons, ih (n0 + 1)]

theorem expectedRooms_labelUI (rs : List (String × Room)) : ∀ n0 : Nat,
    (expectedRooms n0 rs).map (fun q => (q.2.label, q.2.ui)) =
      rs.map (fun p => (p.2.label, p.2.ui)) := by
  induction rs with
  | nil => intro n0; rfl
  | cons p rest ih =>
      intro n0
      simp only [expectedRooms, List.map_cons, ih (n0 + 1)]

theorem expectedRooms_length (rs : List (String × Room)) : ∀ n0 : Nat,
    (expectedRooms n0 rs).length = rs.length := by
  induction rs with
  | nil => intro n0; rfl
  | cons p rest ih =>
      intro n0
      simp only [expectedRooms, List.length_cons, ih (n0 + 1)]

theorem expectedRooms_mem_key (rs : List (String × Room)) : ∀ (n0 : Nat),
    ∀ q ∈ expectedRooms n0 rs, ∃ m, n0 ≤ m ∧ q.1 = natToId m ∧ q.2.id = natToId m := by
  induction rs with
  | nil => intro n0 q hq; cases hq
  | cons p rest ih =>
      intro n0 q hq
      rcases List.mem_cons.mp hq with h | h
      · exact ⟨n0, le_refl n0, by rw [h], by rw [h]⟩
      · obtain ⟨m, hm, hk, hid⟩ := ih (n0 + 1) q h
        exact ⟨m, by omega, hk, hid⟩

theorem jsObjGet_expected_label_isSome (rs : List (String × Room)) : ∀ (n0 : Nat)
    (L : String), L ∈ rs.map (fun p => p.2.label) →
    (jsObjGet L ((expectedRooms n0 rs).map (fun e => (e.2.label, e.2)))).isSome = true := by
  induction rs with
  | nil => intro n0 L hL; cases hL
  | cons p rest ih =>
      intro n0 L hL
      simp only [expectedRooms, List.map_cons]
      rw [jsObjGet_cons]
      by_cases h : p.2.label = L
      · rw [if_pos h]; rfl
      · rw [if_neg h]
        apply ih (n0 + 1) L
        rcases List.mem_cons.mp hL with h0 | h0
        · exact absurd h0.symm h
        · exact h0

theorem tempGood_expected (rs : List (String × Room)) : ∀ (n0 : Nat)
    (L : String) (A : Room),
    jsObjGet L ((expectedRooms n0 rs).map (fun e => (e.2.label, e.2))) = some A →
    A.label = L ∧ jsObjGet A.id (expectedRooms n0 rs) = some A := by
  induction rs with
  | nil => intro n0 L A h; cases h
  | cons p rest ih =>
      intro n0 L A h
      simp only [expectedRooms, List.map_cons] at h
      rw [jsObjGet_cons] at h
      by_cases hL : p.2.label = L
      · rw [if_pos hL] at h
        have hA := Option.some.inj h
        subst hA
        refine ⟨hL, ?_⟩
        simp only [expectedRooms]
        rw [jsObjGet_cons, if_pos rfl]
      · rw [if_neg hL] at h
        obtain ⟨hlab, hreg⟩ := ih (n0 + 1) L A h
        refine ⟨hlab, ?_⟩
        have hmem := jsObjGet_eq_some_mem hreg
        obtain ⟨m, hm, hk, hid⟩ := expectedRooms_mem_key rest (n0 + 1) (A.id, A) hmem
        simp only [expectedRooms]
        rw [jsObjGet_cons, if_neg, hreg]
        intro he
        have : n0 = m := natToId_inj (he.trans hk)
        omega

/-! ## Lemmas about the saved master's objects -/

theorem foldl_jsObjSet_eq_append {β : Type} (f : (String × Room) → String)
    (g : (String × Room) → β) :
    ∀ (rs : List (String × Room)) (acc : List (String × β)),
      (rs.map f).Nodup → (∀ a ∈ rs, ∀ q ∈ acc, ¬(q.1 = f a)) →
      rs.foldl (fun acc2 a => jsObjSet (f a) (g a) acc2) acc =
        acc ++ rs.map (fun a => (f a, g a)) := by
  intro rs
  induction rs with
  | nil => intro acc _ _; simp
  | cons a rest ih =>
      intro acc hnd hdisj
      have hset : jsObjSet (f a) (g a) acc = acc ++ [(f a, g a)] :=
        jsObjSet_of_forall_ne (f a) (g a) acc
          (fun q hq => hdisj a (List.mem_cons_self _ _) q hq)
      have hnd2 : (f a) ∉ (rest.map f) ∧ (rest.map f).Nodup := by
        rw [List.map_cons] at hnd
        exact List.nodup_cons.mp hnd
      have hnd' := hnd2.2
      have hhead := hnd2.1
      simp only [List.foldl_cons, hset]
      rw [ih (acc ++ [(f a, g a)]) hnd' ?_]
      · simp
      · intro b hb q hq
        rcases List.mem_append.mp hq with h | h
        · exact hdisj b (List.mem_cons_of_mem _ hb) q h
        · rcases List.mem_singleton.mp h with h0
          rw [h0]
          intro he
          have he' : f a = f b := he
          exact hhead (he' ▸ List.mem_map_of_mem f hb)

theorem find?_saved_files (extra : List UFile) :
    ∀ (rs : List (String × Room)), (rs.map (fun p => p.2.label)).Nodup →
      ∀ p ∈ rs,
        ((rs.map (fun q => UFile.mk (roomFileName q.2.label) (.payload q.2.data))) ++
            extra).find? (fun f => f.name = roomFileName p.2.label) =
          some (UFile.mk (roomFileName p.2.label) (.payload p.2.data)) := by
  intro rs
  induction rs with
  | nil => intro _ p hp; cases hp
  | cons q0 rest ih =>
      intro hnd p hp
      have hnd2 : (q0.2.label) ∉ (rest.map (fun p => p.2.label)) ∧
          (rest.map (fun p => p.2.label)).Nodup := by
        rw [List.map_cons] at hnd
        exact List.nodup_cons.mp hnd
      have hnd' := hnd2.2
      have hhead := hnd2.1
      rcases List.mem_cons.mp hp with h | h
      · subst h
        simp only [List.map_cons, List.cons_append]
        rw [List.find?_cons_of_pos]
        simp
      · simp only [List.map_cons, List.cons_append]
        rw [List.find?_cons_of_neg, ih hnd' p h]
        simp only [decide_eq_true_eq]
        intro he
        have : q0.2.label = p.2.label := roomFileName_inj he
        exact hhead (this ▸ List.mem_map_of_mem (fun r => r.2.label) h)

theorem jsObjGet_label_map {β : Type} (g : (String × Room) → β) :
    ∀ (rs : List (String × Room)), (rs.map (fun p => p.2.label)).Nodup →
      ∀ p ∈ rs,
        jsObjGet p.2.label (rs.map (fun q => (q.2.label, g q))) = some (g p) := by
  intro rs
  induction rs with
  | nil => intro _ p hp; cases hp
  | cons q0 rest ih =>
      intro hnd p hp
      have hnd2 : (q0.2.label) ∉ (rest.map (fun p => p.2.label)) ∧
          (rest.map (fun p => p.2.label)).Nodup := by
        rw [List.map_cons] at hnd
        exact List.nodup_cons.mp hnd
      have hnd' := hnd2.2
      have hhead := hnd2.1
      simp only [List.map_cons]
      rw [jsObjGet_cons]
      rcases List.mem_cons.mp hp with h | h
      · subst h
        rw [if_pos rfl]
      · rw [if_neg, ih hnd' p h]
        intro he
        exact hhead (he ▸ List.mem_map_of_mem (fun r => r.2.label) h)

/-! ## The room loop of `load` on a saved registry -/

theorem createRoom_eq (st : GraphState) (L : String) (D : Payload) (U : UIVal)
    (hl : ¬(L = "")) (hd : ¬(D.str = "")) :
    createRoom st { label := some L, data := some D, ui := some U } =
      ({ id := natToId st.nextId, label := L, data := D, ui := U },
       { st with
          nextId := st.nextId + 1
          rooms := jsObjSet (natToId st.nextId)
            { id := natToId st.nextId, label := L, data := D, ui := U } st.rooms }) := by
  simp [createRoom, mkRoom, jsOrString, jsOrPayload, hl, hd]

theorem loadRooms_eq (files : List UFile) (ub : List (String × UIVal)) :
    ∀ (rs : List (String × Room)) (st : GraphState) (temp : List (String × Room)),
      (∀ p ∈ rs, jsBasename (roomFileName p.2.label) = roomFileName p.2.label) →
      (∀ p ∈ rs, files.find? (fun f => f.name = roomFileName p.2.label) =
          some (UFile.mk (roomFileName p.2.label) (.payload p.2.data))) →
      (∀ p ∈ rs, jsObjGet p.2.label ub = some p.2.ui) →
      (∀ p ∈ rs, ¬(p.2.label = "")) →
      (∀ p ∈ rs, ¬(p.2.data.str = "")) →
      (∀ q ∈ st.rooms, ∃ m, m < st.nextId ∧ q.1 = natToId m) →
      (∀ p ∈ rs, ∀ q ∈ temp, ¬(q.1 = p.2.label)) →
      ((rs.map (fun p => p.2.label)).Nodup) →
      loadRooms files (some ub) st temp
          (rs.map (fun p => (p.2.label, roomFileName p.2.label))) =
        ({ st with
            nextId := st.nextId + rs.length
            rooms := st.rooms ++ expectedRooms st.nextId rs },
         temp ++ (expectedRooms st.nextId rs).map (fun e => (e.2.label, e.2))) := by
  intro rs
  induction rs with
  | nil =>
      intro st temp _ _ _ _ _ _ _ _
      simp [loadRooms, expectedRooms]
  | cons p rest ih =>
      intro st temp hbase hfile hui hlab hdat hkeys htemp hnd
      have hb := hbase p (List.mem_cons_self _ _)
      have hf := hfile p (List.mem_cons_self _ _)
      have hu := hui p (List.mem_cons_self _ _)
      have hl := hlab p (List.mem_cons_self _ _)
      have hd := hdat p (List.mem_cons_self _ _)
      have hnd2 : p.2.label ∉ rest.map (fun q => q.2.label) ∧
          (rest.map (fun q => q.2.label)).Nodup := by
        rw [List.map_cons] at hnd
        exact List.nodup_cons.mp hnd
      simp only [List.map_cons, loadRooms, hb, hf, filePayload, hu]
      rw [createRoom_eq st p.2.label p.2.data p.2.ui hl hd]
      have hset1 : jsObjSet (natToId st.nextId)
          { id := natToId st.nextId, label := p.2.label, data := p.2.data, ui := p.2.ui }
          st.rooms =
          st.rooms ++ [(natToId st.nextId,
            { id := natToId st.nextId, label := p.2.label, data := p.2.data, ui := p.2.ui })] := by
        apply jsObjSet_of_forall_ne
        intro q hq
        obtain ⟨m, hm, hk⟩ := hkeys q hq
        rw [hk]
        intro he
        have := natToId_inj he
        omega
      have hset2 : jsObjSet p.2.label
          ({ id := natToId st.nextId, label := p.2.label, data := p.2.data, ui := p.2.ui } : Room)
          temp =
          temp ++ [(p.2.label,
            ({ id := natToId st.nextId, label := p.2.label, data := p.2.data, ui := p.2.ui } : Room))] :=
        jsObjSet_of_forall_ne _ _ _ (fun q hq => htemp p (List.mem_cons_self _ _) q hq)
      simp only [hset1, hset2]
      rw [ih { st with
                nextId := st.nextId + 1
                rooms := st.rooms ++ [(natToId st.nextId,
                  { id := natToId st.nextId, label := p.2.label, data := p.2.data, ui := p.2.ui })] }
            (temp ++ [(p.2.label,
              ({ id := natToId st.nextId, label := p.2.label, data := p.2.data, ui := p.2.ui } : Room))])
            (fun q hq => hbase q (List.mem_cons_of_mem _ hq))
            (fun q hq => hfile q (List.mem_cons_of_mem _ hq))
            (fun q hq => hui q (List.mem_cons_of_mem _ hq))
            (fun q hq => hlab q (List.mem_cons_of_mem _ hq))
            (fun q hq => hdat q (List.mem_cons_of_mem _ hq))
            ?_ ?_ hnd2.2]
      · simp only [expectedRooms, List.map_cons, List.append_assoc, List.cons_append,
          List.nil_append, List.length_cons]
        have hnat : st.nextId + 1 + rest.length = st.nextId + (rest.length + 1) := by omega
        rw [hnat]
      · intro q hq
        rcases List.mem_append.mp hq with h | h
        · obtain ⟨m, hm, hk⟩ := hkeys q h
          refine ⟨m, ?_, hk⟩
          show m < st.nextId + 1
          omega
        · rcases List.mem_singleton.mp h with h0
          rw [h0]
          refine ⟨st.nextId, ?_, rfl⟩
          show st.nextId < st.nextId + 1
          omega
      · intro q hq r hr
        rcases List.mem_append.mp hr with h | h
        · exact htemp q (List.mem_cons_of_mem _ hq) r h
        · rcases List.mem_singleton.mp h with h0
          rw [h0]
          intro he
          have he2 : p.2.label = q.2.label := he
          exact hnd2.1 (he2 ▸ List.mem_map_of_mem (fun z => z.2.label) hq)

/-! ## The aperture loop of `load` on saved descriptors -/

theorem map_setui_id (apid : String) (u : ApUI) :
    ∀ (l : List (String × Aperture)), (∀ q ∈ l, ¬(q.1 = apid)) →
      l.map (fun p => if p.1 = apid then (p.1, { p.2 with ui := u }) else p) = l := by
  intro l
  induction l with
  | nil => intro _; rfl
  | cons q t ih =>
      intro h
      rw [List.map_cons, if_neg (h q (List.mem_cons_self _ _)),
        ih (fun r hr => h r (List.mem_cons_of_mem _ hr))]

theorem setApertureUI_eq (st2 : GraphState) (apid : String) (u : ApUI)
    (old : List (String × Aperture)) (ap : Aperture)
    (hst : st2.apertures = old ++ [(apid, ap)])
    (h : ∀ q ∈ old, ¬(q.1 = apid)) :
    setApertureUI st2 apid u =
      { st2 with apertures := old ++ [(apid, { ap with ui := u })] } := by
  rw [setApertureUI, hst, List.map_append, map_setui_id apid u old h]
  simp

theorem areaOfJson_jnumToJson (a : JNum) (h : ¬(a = JNum.nan)) :
    areaOfJson (jnumToJson a) = a := by
  cases a with
  | nan => exact absurd rfl h
  | num q => rfl

theorem descOfWF_area (rooms : List (String × Room)) (ap : Aperture) :
    (descOfWF rooms ap).area = jnumToJson ap.area := by
  rcases hr : ap.rooms with _ | ⟨r0, _ | ⟨r1, _ | ⟨r2, t⟩⟩⟩
  · simp [descOfWF, hr]
  · simp [descOfWF, hr]
  · by_cases hg : ap.grounded = true
    · simp [descOfWF, hr, hg]
    · have hgf : ap.grounded = false := Bool.eq_false_iff.mpr hg
      simp [descOfWF, hr, hgf]
  · simp [descOfWF, hr]

theorem payloadInert_str {pl : Payload} (h : payloadInert pl = true) :
    ¬(pl.str = "") := by
  cases pl with
  | text s =>
      simp only [payloadInert, decide_eq_true_eq] at h
      exact h
  | masterLike s m => cases h

theorem payloadInert_sniff {pl : Payload} (h : payloadInert pl = true) :
    sniffMaster (.payload pl) = none := by
  cases pl with
  | text s => rfl
  | masterLike s m => cases h

theorem loadApertures_eq (origRooms temp loaded : List (String × Room)) (uis : List ApUI)
    (htgood : ∀ L A, jsObjGet L temp = some A →
      A.label = L ∧ jsObjGet A.id loaded = some A) :
    ∀ (aps : List (String × Aperture)) (st' : GraphState) (i0 : Nat),
      st'.rooms = loaded →
      (∀ p ∈ aps, apWF origRooms p.2 = true) →
      (∀ p ∈ aps, (jsObjGet (descOfWF origRooms p.2).origin temp).isSome = true) →
      (∀ p ∈ aps, ¬(p.2.area = JNum.nan)) →
      (∀ j : Nat, uis.get? (i0 + j) = (aps.get? j).map (fun p => p.2.ui)) →
      (∀ q ∈ st'.apertures, ∃ m, m < st'.nextId ∧ q.1 = natToId m) →
      ∃ newAps : List (String × Aperture),
        loadApertures temp (some uis) st' i0 (aps.map (fun p => descOfWF origRooms p.2)) =
          { st' with
              nextId := st'.nextId + aps.length
              apertures := st'.apertures ++ newAps } ∧
        newAps.map (fun q => tripleOfR loaded q.2) =
          aps.map (fun p => tripleOfR origRooms p.2) ∧
        newAps.map (fun q => q.2.ui) = aps.map (fun p => p.2.ui) := by
  intro aps
  induction aps with
  | nil =>
      intro st' i0 _ _ _ _ _ _
      refine ⟨[], ?_, rfl, rfl⟩
      simp [loadApertures]
  | cons p rest ih =>
      intro st' i0 hrooms hwf horig hnum hui hkeys
      have hwf0 := hwf p (List.mem_cons_self _ _)
      have horig0 := horig p (List.mem_cons_self _ _)
      have harea0 : areaOfJson (descOfWF origRooms p.2).area = p.2.area := by
        rw [descOfWF_area]
        exact areaOfJson_jnumToJson _ (hnum p (List.mem_cons_self _ _))
      obtain ⟨A, hA⟩ := Option.isSome_iff_exists.mp horig0
      obtain ⟨hAlab, hAreg⟩ := htgood _ A hA
      have hui0 : uis.get? i0 = some p.2.ui := by
        have h0 := hui 0
        simpa using h0
      have hfresh : ∀ q ∈ st'.apertures, ¬(q.1 = natToId st'.nextId) := by
        intro q hq
        obtain ⟨m, hm, hk⟩ := hkeys q hq
        rw [hk]
        intro he
        have := natToId_inj he
        omega
      have htriple0 := tripleOfR_of_wf origRooms p.2 hwf0
      have hgl : getRoomLabel loaded A.id = some A.label := by
        rw [getRoomLabel, hAreg]
        rfl
      cases hB : jsObjGet (descOfWF origRooms p.2).destination temp with
      | some B =>
          obtain ⟨hBlab, hBreg⟩ := htgood _ B hB
          have hglB : getRoomLabel loaded B.id = some B.label := by
            rw [getRoomLabel, hBreg]
            rfl
          simp only [List.map_cons, loadApertures, hA, hB, createApertureBetween,
            overwriteApUI, hui0]
          rw [harea0]
          rw [jsObjSet_of_forall_ne _ _ _ hfresh]
          rw [setApertureUI_eq _ _ _ st'.apertures _ rfl hfresh]
          obtain ⟨newAps', heq', htr', hup'⟩ := ih
            { st' with
                nextId := st'.nextId + 1
                apertures := st'.apertures ++
                  [(natToId st'.nextId,
                    { id := natToId st'.nextId
                      area := p.2.area
                      grounded := false
                      rooms := [A.id, B.id]
                      ui := p.2.ui })] }
            (i0 + 1) hrooms
            (fun q hq => hwf q (List.mem_cons_of_mem _ hq))
            (fun q hq => horig q (List.mem_cons_of_mem _ hq))
            (fun q hq => hnum q (List.mem_cons_of_mem _ hq))
            (by
              intro j
              have hj := hui (j + 1)
              have hidx : i0 + (j + 1) = i0 + 1 + j := by omega
              rw [hidx] at hj
              simpa using hj) (by
              intro q hq
              rcases List.mem_append.mp hq with h | h
              · obtain ⟨m, hm, hk⟩ := hkeys q h
                refine ⟨m, ?_, hk⟩
                show m < st'.nextId + 1
                omega
              · rcases List.mem_singleton.mp h with h0
                rw [h0]
                refine ⟨st'.nextId, ?_, rfl⟩
                show st'.nextId < st'.nextId + 1
                omega)
          refine ⟨(natToId st'.nextId,
              { id := natToId st'.nextId
                area := p.2.area
                grounded := false
                rooms := [A.id, B.id]
                ui := p.2.ui }) :: newAps', ?_, ?_, ?_⟩
          · rw [heq']
            simp only [List.append_assoc, List.cons_append, List.nil_append,
              List.length_cons]
            have hnat : st'.nextId + 1 + rest.length = st'.nextId + (rest.length + 1) := by
              omega
            rw [hnat]
          · rw [List.map_cons, htr', htriple0]
            congr 1
            rw [tripleOfR]
            simp only [hgl, hglB, hAlab, hBlab]
            rfl
          · rw [List.map_cons, hup']
      | none =>
          simp only [List.map_cons, loadApertures, hA, hB, createGroundedAperture,
            overwriteApUI, hui0]
          rw [harea0]
          rw [jsObjSet_of_forall_ne _ _ _ hfresh]
          rw [setApertureUI_eq _ _ _ st'.apertures _ rfl hfresh]
          obtain ⟨newAps', heq', htr', hup'⟩ := ih
            { st' with
                nextId := st'.nextId + 1
                apertures := st'.apertures ++
                  [(natToId st'.nextId,
                    { id := natToId st'.nextId
                      area := p.2.area
                      grounded := true
                      rooms := [A.id, (descOfWF origRooms p.2).destination]
                      ui := p.2.ui })] }
            (i0 + 1) hrooms
            (fun q hq => hwf q (List.mem_cons_of_mem _ hq))
            (fun q hq => horig q (List.mem_cons_of_mem _ hq))
            (fun q hq => hnum q (List.mem_cons_of_mem _ hq))
            (by
              intro j
              have hj := hui (j + 1)
              have hidx : i0 + (j + 1) = i0 + 1 + j := by omega
              rw [hidx] at hj
              simpa using hj) (by
              intro q hq
              rcases List.mem_append.mp hq with h | h
              · obtain ⟨m, hm, hk⟩ := hkeys q h
                refine ⟨m, ?_, hk⟩
                show m < st'.nextId + 1
                omega
              · rcases List.mem_singleton.mp h with h0
                rw [h0]
                refine ⟨st'.nextId, ?_, rfl⟩
                show st'.nextId < st'.nextId + 1
                omega)
          refine ⟨(natToId st'.nextId,
              { id := natToId st'.nextId
                area := p.2.area
                grounded := true
                rooms := [A.id, (descOfWF origRooms p.2).destination]
                ui := p.2.ui }) :: newAps', ?_, ?_, ?_⟩
          · rw [heq']
            simp only [List.append_assoc, List.cons_append, List.nil_append,
              List.length_cons]
            have hnat : st'.nextId + 1 + rest.length = st'.nextId + (rest.length + 1) := by
              omega
            rw [hnat]
          · rw [List.map_cons, htr', htriple0]
            congr 1
            rw [tripleOfR]
            simp only [hgl, hAlab]
            rfl
          · rw [List.map_cons, hup']

/-! ## Origin labels of well-formed apertures -/

theorem descOfWF_origin_mem (rooms : List (String × Room)) (ap : Aperture)
    (h : apWF rooms ap = true) :
    (descOfWF rooms ap).origin ∈ rooms.map (fun p => p.2.label) := by
  rcases hr : ap.rooms with _ | ⟨r0, _ | ⟨r1, _ | ⟨r2, t⟩⟩⟩
  · rw [apWF, hr] at h; cases h
  · rw [apWF, hr] at h; cases h
  · by_cases hg : ap.grounded = true
    · simp only [apWF, hr, hg, if_true] at h
      obtain ⟨A0, hA0⟩ := Option.isSome_iff_exists.mp h
      have hmem := jsObjGet_eq_some_mem hA0
      have he : (descOfWF rooms ap).origin = A0.label := by
        simp [descOfWF, hr, hg, getRoomLabel, hA0]
      rw [he]
      exact List.mem_map_of_mem (fun p => p.2.label) hmem
    · have hgf : ap.grounded = false := Bool.eq_false_iff.mpr hg
      simp only [apWF, hr, hgf, Bool.false_eq_true, if_false] at h
      have hw : (jsObjGet r0 rooms).isSome = true ∧ (jsObjGet r1 rooms).isSome = true := by
        simpa using h
      obtain ⟨A0, hA0⟩ := Option.isSome_iff_exists.mp hw.1
      have hmem := jsObjGet_eq_some_mem hA0
      obtain ⟨A1, hA1⟩ := Option.isSome_iff_exists.mp hw.2
      have he : (descOfWF rooms ap).origin = A0.label := by
        simp [descOfWF, hr, hgf, getRoomLabel, hA0]
      rw [he]
      exact List.mem_map_of_mem (fun p => p.2.label) hmem
  · rw [apWF, hr] at h; cases h

/-! ## The round-trip claim theorem -/

/-- C1, amended.  For a layout whose rooms have distinct labels, where no
label is empty, is the reserved string `"apertures"`, or contains a `'/'`
(so its filename survives basename extraction), every room's data payload is
non-empty and not itself a master-qualifying JSON document (room files
precede the master in the produced file set, so a master-like payload would
hijack `findMaster`), no aperture's area is `NaN` (`JSON.stringify` writes
`NaN` as `null`, which the `Aperture` constructor's `area ?? 1.0` reloads as
`1.0`), and every aperture has its full complement of registered endpoints,
saving and then loading the produced file set succeeds and reproduces the
layout: the same label-keyed data payloads and room UI values, and the same
sequence (hence the same order-insensitive multiset) of aperture
`{origin, destination, area}` triples and aperture UI positions. -/
theorem saveLoad_roundtrip (st st₂ : GraphState)
    (hnd : (st.rooms.map (fun p => p.2.label)).Nodup)
    (hroom : ∀ p ∈ st.rooms, roomWF p.2 = true)
    (hap : ∀ p ∈ st.apertures, apWF st.rooms p.2 = true)
    (hnum : ∀ p ∈ st.apertures, ¬(p.2.area = JNum.nan)) :
    ∃ files m loaded,
      save st = .ok (files, m) ∧
      load st₂ files = (loaded, false) ∧
      roomLabelData loaded = roomLabelData st ∧
      roomLabelUI loaded = roomLabelUI st ∧
      layoutTriples loaded = layoutTriples st ∧
      apertureUIs loaded = apertureUIs st := by
  have hro : ∀ p ∈ st.rooms,
      ¬(p.2.label = "") ∧ ¬(p.2.label = "apertures") ∧
      jsBasename (roomFileName p.2.label) = roomFileName p.2.label ∧
      payloadInert p.2.data = true := by
    intro p hp
    have h := hroom p hp
    rw [roomWF] at h
    simp only [Bool.and_eq_true, decide_eq_true_eq] at h
    exact ⟨h.1.1.1.1, h.1.1.1.2, h.1.1.2, h.1.2⟩
  have hrf : st.rooms.foldl
      (fun acc p => jsObjSet p.2.label (roomFileName p.2.label) acc) [] =
      st.rooms.map (fun p => (p.2.label, roomFileName p.2.label)) := by
    have h := foldl_jsObjSet_eq_append (fun p => p.2.label)
      (fun p => roomFileName p.2.label) st.rooms [] hnd
      (by intro a _ q hq; cases hq)
    simpa using h
  have hur : st.rooms.foldl (fun acc p => jsObjSet p.2.label p.2.ui acc) [] =
      st.rooms.map (fun p => (p.2.label, p.2.ui)) := by
    have h := foldl_jsObjSet_eq_append (fun p => p.2.label) (fun p => p.2.ui)
      st.rooms [] hnd (by intro a _ q hq; cases hq)
    simpa using h
  have hub : jsObjSet "apertures" (UIVal.aplist (st.apertures.map (fun p => p.2.ui)))
      (st.rooms.map (fun p => (p.2.label, p.2.ui))) =
      st.rooms.map (fun p => (p.2.label, p.2.ui)) ++
        [("apertures", UIVal.aplist (st.apertures.map (fun p => p.2.ui)))] := by
    apply jsObjSet_of_forall_ne
    intro q hq
    obtain ⟨p, hp, hpe⟩ := List.mem_map.mp hq
    rw [← hpe]
    intro he
    exact (hro p hp).2.1 he
  have hsv : save st = .ok (
      st.rooms.map (fun p => UFile.mk (roomFileName p.2.label) (.payload p.2.data)) ++
        [UFile.mk "layout_master.json" (.master
          { rooms := st.rooms.map (fun p => (p.2.label, roomFileName p.2.label))
            apertures := st.apertures.map (fun p => descOfWF st.rooms p.2)
            ui := some (st.rooms.map (fun p => (p.2.label, p.2.ui)) ++
              [("apertures", UIVal.aplist (st.apertures.map (fun p => p.2.ui)))]) })],
      { rooms := st.rooms.map (fun p => (p.2.label, roomFileName p.2.label))
        apertures := st.apertures.map (fun p => descOfWF st.rooms p.2)
        ui := some (st.rooms.map (fun p => (p.2.label, p.2.ui)) ++
          [("apertures", UIVal.aplist (st.apertures.map (fun p => p.2.ui)))]) }) := by
    simp only [save, saveApertures_wf st.rooms st.apertures hap, hrf, hur, hub]
  have hfm : ∀ M : MasterDoc,
      findMaster (st.rooms.map (fun p => UFile.mk (roomFileName p.2.label) (.payload p.2.data)) ++
        [UFile.mk "layout_master.json" (.master M)]) = some M := by
    intro M
    rw [findMaster, List.findSome?_append]
    have h1 : (st.rooms.map
        (fun p => UFile.mk (roomFileName p.2.label) (.payload p.2.data))).findSome?
        (fun f => sniffMaster f.content) = none := by
      rw [List.findSome?_eq_none_iff]
      intro x hx
      obtain ⟨p, hp, hpe⟩ := List.mem_map.mp hx
      rw [← hpe]
      exact payloadInert_sniff ((hro p hp).2.2.2)
    rw [h1, Option.none_or]
    rfl
  have hlr : ∀ extra : List UFile,
      loadRooms
        (st.rooms.map (fun p => UFile.mk (roomFileName p.2.label) (.payload p.2.data)) ++ extra)
        (some (st.rooms.map (fun p => (p.2.label, p.2.ui)) ++
          [("apertures", UIVal.aplist (st.apertures.map (fun p => p.2.ui)))]))
        (reset st₂) []
        (st.rooms.map (fun p => (p.2.label, roomFileName p.2.label))) =
      ({ reset st₂ with
          nextId := (reset st₂).nextId + st.rooms.length
          rooms := (reset st₂).rooms ++ expectedRooms (reset st₂).nextId st.rooms },
       [] ++ (expectedRooms (reset st₂).nextId st.rooms).map (fun e => (e.2.label, e.2))) := by
    intro extra
    apply loadRooms_eq
    · intro p hp; exact (hro p hp).2.2.1
    · intro p hp; exact find?_saved_files extra st.rooms hnd p hp
    · intro p hp
      rw [jsObjGet_append, jsObjGet_label_map (fun q => q.2.ui) st.rooms hnd p hp,
        Option.or_some]
    · intro p hp; exact (hro p hp).1
    · intro p hp; exact payloadInert_str ((hro p hp).2.2.2)
    · intro q hq; simp [reset] at hq
    · intro p hp q hq; cases hq
    · exact hnd
  have hua : uiApertures (some (st.rooms.map (fun p => (p.2.label, p.2.ui)) ++
      [("apertures", UIVal.aplist (st.apertures.map (fun p => p.2.ui)))])) =
      some (st.apertures.map (fun p => p.2.ui)) := by
    rw [uiApertures]
    have h0 : jsObjGet "apertures" (st.rooms.map (fun p => (p.2.label, p.2.ui))) = none := by
      apply jsObjGet_none_of_forall_ne
      intro q hq
      obtain ⟨p, hp, hpe⟩ := List.mem_map.mp hq
      rw [← hpe]
      intro he
      exact (hro p hp).2.1 he
    rw [jsObjGet_append, h0, Option.none_or, jsObjGet_cons, if_pos rfl]
  obtain ⟨newAps, heqA, htrA, huiA⟩ :=
    loadApertures_eq st.rooms
      ((expectedRooms (reset st₂).nextId st.rooms).map (fun e => (e.2.label, e.2)))
      (expectedRooms (reset st₂).nextId st.rooms)
      (st.apertures.map (fun p => p.2.ui))
      (fun L A h => tempGood_expected st.rooms (reset st₂).nextId L A h)
      st.apertures
      { reset st₂ with
          nextId := (reset st₂).nextId + st.rooms.length
          rooms := (reset st₂).rooms ++ expectedRooms (reset st₂).nextId st.rooms }
      0
      (by simp [reset])
      hap
      (fun p hp => jsObjGet_expected_label_isSome st.rooms (reset st₂).nextId _
        (descOfWF_origin_mem st.rooms p.2 (hap p hp)))
      hnum
      (by intro j; rw [Nat.zero_add, List.get?_map])
      (by intro q hq; simp [reset] at hq)
  have hlr1 := hlr [UFile.mk "layout_master.json" (UContent.master
    { rooms := st.rooms.map (fun p => (p.2.label, roomFileName p.2.label))
      apertures := st.apertures.map (fun p => descOfWF st.rooms p.2)
      ui := some (st.rooms.map (fun p => (p.2.label, p.2.ui)) ++
        [("apertures", UIVal.aplist (st.apertures.map (fun p => p.2.ui)))]) })]
  have hload : load st₂
      (st.rooms.map (fun p => UFile.mk (roomFileName p.2.label) (.payload p.2.data)) ++
        [UFile.mk "layout_master.json" (.master
          { rooms := st.rooms.map (fun p => (p.2.label, roomFileName p.2.label))
            apertures := st.apertures.map (fun p => descOfWF st.rooms p.2)
            ui := some (st.rooms.map (fun p => (p.2.label, p.2.ui)) ++
              [("apertures", UIVal.aplist (st.apertures.map (fun p => p.2.ui)))]) })]) =
      ({ nextId := (reset st₂).nextId + st.rooms.length + st.apertures.length
         rooms := expectedRooms (reset st₂).nextId st.rooms
         apertures := newAps
         linkMode := st₂.linkMode
         linkSelection := st₂.linkSelection }, false) := by
    rw [load, hfm]
    simp only []
    rw [hlr1]
    simp only [List.nil_append]
    rw [hua, heqA]
    simp [reset]
  refine ⟨_, _, _, hsv, hload, ?_, ?_, ?_, ?_⟩
  · rw [roomLabelData, roomLabelData]
    exact expectedRooms_labelData st.rooms (reset st₂).nextId
  · rw [roomLabelUI, roomLabelUI]
    exact expectedRooms_labelUI st.rooms (reset st₂).nextId
  · rw [layoutTriples, layoutTriples]
    exact htrA
  · rw [apertureUIs, apertureUIs]
    exact huiA

/-- C1 witness: the round trip on the concrete one-room, one-grounded-
aperture layout, loaded over an empty editor state. -/
theorem saveLoad_roundtrip_witness :
    ∃ files m loaded,
      save exGroundedState = .ok (files, m) ∧
      load exEmptyState files = (loaded, false) ∧
      roomLabelData loaded = roomLabelData exGroundedState ∧
      roomLabelUI loaded = roomLabelUI exGroundedState ∧
      layoutTriples loaded = layoutTriples exGroundedState ∧
      apertureUIs loaded = apertureUIs exGroundedState :=
  saveLoad_roundtrip exGroundedState exEmptyState (by decide) (by decide) (by decide)
    (by decide)
